import Mathlib

set_option maxHeartbeats 1000000

/-!
Verification development for the YouTubeFilters browser extension.

The source files embedded here:
* `content.js` — quantity parsers, filter checkers, scan loop (`runAllFilters`),
  history writer (`storeFilteredVideo`), view-count extraction regexes.
* `src/utils/utils.js` — the same three quantity parsers (verbatim copies).
* the filter-functions module — modular `checkViewsFilter` … `applyAllFilters`.
* the filter-engine module — `YouTubeFilterEngine.runFilters` (same loop shape).
* `src/core/settings-manager.js` — `addFilteredVideo`, `validateAndSanitizeSettings`.

Modelling conventions:
* JavaScript numbers are modelled as exact rationals plus `NaN` and the two
  infinities (`JSNum`).  All arithmetic the embedded code performs on the
  values arising in this development is exact in IEEE-754 double precision
  (small integers, and products such as `1.4 * 1000` and `2.3 * 1000000`,
  which round to exactly `1400` and `2300000`), so the rational model agrees
  with the JavaScript semantics on every value mentioned below.
* Nullable string inputs are modelled by `JStr` (`null` / `undefined` /
  a string); reading a string method off a nullish value is modelled as a
  thrown `TypeError` in an `Except` monad, which is how totality claims about
  the parsers become non-trivial statements.
* Regular-expression searches are compiled by hand to character-list scans.
  Each scan is documented with the regex it implements, and follows the
  leftmost-match, greedy semantics of the JavaScript engine (for these
  particular patterns backtracking never changes the outcome, as argued in
  the comments).
-/

/-- JavaScript number: NaN, ±Infinity, or a finite value (modelled exactly). -/
inductive JSNum where
  | nan
  | posInf
  | negInf
  | num (q : ℚ)
deriving DecidableEq, Repr

namespace JSNum

/-- Multiplication by a positive rational constant (the `*= 1000` etc. steps).
NaN propagates; infinities keep their sign (the constant is positive). -/
def mulPos (a : JSNum) (k : ℚ) : JSNum :=
  match a with
  | nan => nan
  | posInf => posInf
  | negInf => negInf
  | num q => num (q * k)

/-- JavaScript `<` against a finite right-hand side: NaN compares false. -/
def ltQ (a : JSNum) (b : ℚ) : Bool :=
  match a with
  | nan => false
  | posInf => false
  | negInf => true
  | num q => q < b

/-- JavaScript `>=` against a finite right-hand side: NaN compares false. -/
def geQ (a : JSNum) (b : ℚ) : Bool :=
  match a with
  | nan => false
  | posInf => true
  | negInf => false
  | num q => b ≤ q

/-- JavaScript `<=` against a finite right-hand side: NaN compares false. -/
def leQ (a : JSNum) (b : ℚ) : Bool :=
  match a with
  | nan => false
  | posInf => false
  | negInf => true
  | num q => q ≤ b

/-- JavaScript `>` against a finite right-hand side: NaN compares false. -/
def gtQ (a : JSNum) (b : ℚ) : Bool :=
  match a with
  | nan => false
  | posInf => true
  | negInf => false
  | num q => b < q

end JSNum

/-- Nullable string argument: `null`, `undefined`, or an actual string. -/
inductive JStr where
  | jnull
  | jundef
  | jstr (s : String)
deriving DecidableEq, Repr

namespace JStr

/-- JavaScript falsiness of a nullable string (`!text`):
`null`, `undefined` and the empty string are falsy. -/
def falsy : JStr → Bool
  | jnull => true
  | jundef => true
  | jstr s => s = ""

/-- Reading a string method off the value: throws `TypeError` on nullish. -/
def asStr : JStr → Except String String
  | jnull => .error "TypeError: Cannot read properties of null"
  | jundef => .error "TypeError: Cannot read properties of undefined"
  | jstr s => .ok s

end JStr

/-- Whitespace class of the JavaScript `\s` regex class and `String.trim`
(restricted to the ASCII members, the only ones arising here). -/
def isWS (c : Char) : Bool :=
  c = ' ' || c = '\t' || c = '\n' || c = '\r' || c = '\x0b' || c = '\x0c'

/-- JavaScript `String.prototype.trim` on a character list. -/
def trimL (l : List Char) : List Char :=
  ((l.dropWhile isWS).reverse.dropWhile isWS).reverse

/-- Decimal value of a digit list (most significant first). -/
def natVal (l : List Char) : ℕ :=
  l.foldl (fun a c => 10 * a + (c.toNat - '0'.toNat)) 0

/-- Value of a fractional digit list: `fracVal "25" = 25/100`. -/
def fracVal (l : List Char) : ℚ :=
  (natVal l : ℚ) / (10 : ℚ) ^ l.length

/-- Body of JavaScript `parseFloat` after the sign has been read: an
`Infinity` literal, or `digits [. digits] [e|E [+|-] digits]`; `NaN` when no
digit appears before the exponent. -/
def jsParseFloatUnsigned (l : List Char) (neg : Bool) : JSNum :=
  if ['I','n','f','i','n','i','t','y'].isPrefixOf l then
    (if neg then .negInf else .posInf)
  else
    let ip := l.takeWhile Char.isDigit
    let r1 := l.dropWhile Char.isDigit
    let fr : List Char × List Char :=
      match r1 with
      | '.' :: rr => (rr.takeWhile Char.isDigit, rr.dropWhile Char.isDigit)
      | _ => ([], r1)
    let fp := fr.1
    let r2 := fr.2
    if ip = [] ∧ fp = [] then .nan
    else
      let mant : ℚ := (natVal ip : ℚ) + fracVal fp
      let ex : Bool × List Char :=
        match r2 with
        | 'e' :: '+' :: er => (false, er.takeWhile Char.isDigit)
        | 'E' :: '+' :: er => (false, er.takeWhile Char.isDigit)
        | 'e' :: '-' :: er => (true, er.takeWhile Char.isDigit)
        | 'E' :: '-' :: er => (true, er.takeWhile Char.isDigit)
        | 'e' :: er => (false, er.takeWhile Char.isDigit)
        | 'E' :: er => (false, er.takeWhile Char.isDigit)
        | _ => (false, [])
      let v : ℚ :=
        if ex.2 = [] then mant
        else if ex.1 then mant / (10 : ℚ) ^ natVal ex.2
        else mant * (10 : ℚ) ^ natVal ex.2
      .num (if neg then -v else v)

/-- JavaScript `parseFloat` on a character list: skip whitespace, optional
sign, then `jsParseFloatUnsigned`. -/
def jsParseFloat (l : List Char) : JSNum :=
  let l1 := l.dropWhile isWS
  match l1 with
  | c :: r =>
    if c = '+' then jsParseFloatUnsigned r false
    else if c = '-' then jsParseFloatUnsigned r true
    else jsParseFloatUnsigned (c :: r) false
  | [] => jsParseFloatUnsigned [] false

/-- JavaScript `parseInt(s, 10)`: skip whitespace, optional sign, then a
leading digit run; `NaN` (modelled as `none`) when no digit is found. -/
def jsParseIntL (l : List Char) : Option ℤ :=
  let l1 := l.dropWhile isWS
  let sl : Bool × List Char :=
    match l1 with
    | c :: r => if c = '-' then (true, r) else if c = '+' then (false, r) else (false, c :: r)
    | [] => (false, [])
  let ds := sl.2.takeWhile Char.isDigit
  if ds = [] then none
  else some (if sl.1 then -(natVal ds : ℤ) else (natVal ds : ℤ))

/-- Case-insensitive removal of the pattern characters from the front of a
list; `pat` is given in lowercase.  Returns the remainder on success. -/
def dropPrefixCI : List Char → List Char → Option (List Char)
  | [], l => some l
  | _ :: _, [] => none
  | p :: ps, c :: cs => if c.toLower = p then dropPrefixCI ps cs else none

/-- The `text.replace(/views?/i, "")` step of `parseViewCount`: remove the
first case-insensitive occurrence of `view` plus an optional trailing `s`. -/
def stripViewWord : List Char → List Char
  | [] => []
  | c :: cs =>
    match dropPrefixCI ['v','i','e','w'] (c :: cs) with
    | some rest =>
      match rest with
      | r :: rs => if r.toLower = 's' then rs else r :: rs
      | [] => []
    | none => c :: stripViewWord cs

/-- Leftmost match of `[\d\.]+` (a digit-or-dot run): the run and the rest of
the input after it.  The pattern can only start at a digit-or-dot character,
so the leftmost match starts at the first such character. -/
def numRunSearch : List Char → Option (List Char × List Char)
  | [] => none
  | c :: cs =>
    if c.isDigit || c = '.' then
      some ((c :: cs).takeWhile (fun x => x.isDigit || x = '.'),
            (c :: cs).dropWhile (fun x => x.isDigit || x = '.'))
    else numRunSearch cs

/-- The `\s*([KMB]?)` tail of the `parseViewCount` regex, followed by the
`match[2].toUpperCase()` step: the upper-cased suffix letter when the first
character after the whitespace is `K`/`M`/`B` in either case. -/
def kmbSuffix (rest : List Char) : Option Char :=
  match rest.dropWhile isWS with
  | c :: _ =>
    if c.toLower = 'k' || c.toLower = 'm' || c.toLower = 'b' then some c.toUpper
    else none
  | [] => none

/-- Core of `parseViewCount` (content.js lines 13–30, utils.js lines 11–28)
on a non-falsy string: strip the word `views`/`view`, strip commas, trim,
search `([\d\.]+)\s*([KMB]?)/i`, scale by the suffix; with no match, fall
back to `parseFloat` of the cleaned text, turning NaN into 0. -/
def parseViewCountStr (s : String) : JSNum :=
  let cleaned := trimL ((stripViewWord s.data).filter (· ≠ ','))
  match numRunSearch cleaned with
  | some (run, rest) =>
    let number := jsParseFloat run
    match kmbSuffix rest with
    | some c =>
      if c = 'K' then number.mulPos 1000
      else if c = 'M' then number.mulPos 1000000
      else number.mulPos 1000000000
    | none => number
  | none =>
    match jsParseFloat cleaned with
    | .nan => .num 0
    | v => v

/-- JavaScript `parseViewCount`: the falsy guard returns 0, otherwise the
string body runs (reading the string off a nullish value would throw). -/
def parseViewCount (t : JStr) : Except String JSNum :=
  if t.falsy then .ok (.num 0) else t.asStr.map parseViewCountStr

/-- Splitting a character list on a separator, JavaScript `split` semantics
(empty pieces preserved, result always non-empty). -/
def splitCh (sep : Char) : List Char → List (List Char)
  | [] => [[]]
  | c :: cs =>
    if c = sep then [] :: splitCh sep cs
    else
      match splitCh sep cs with
      | r :: rs => (c :: r) :: rs
      | [] => [[c]]

/-- Search in the text-format branch of `parseDuration` for the regex
`(\d+)\s*X…` where `X` is the unit's first letter (case-insensitive): the
first maximal digit run that is followed, after optional whitespace, by the
letter.  The optional groups after the letter never constrain the match. -/
def numBefore (letter : Char) : List Char → Option ℕ
  | [] => none
  | c :: cs =>
    if c.isDigit then
      let run := (c :: cs).takeWhile Char.isDigit
      let rest := ((c :: cs).dropWhile Char.isDigit).dropWhile isWS
      match rest with
      | d :: _ => if d.toLower = letter then some (natVal run) else numBefore letter cs
      | [] => numBefore letter cs
    else numBefore letter cs

/-- Text-format branch of `parseDuration`: independent hour / minute / second
regex searches, absent components contributing 0. -/
def textDuration (cleaned : List Char) : JSNum :=
  let h := (numBefore 'h' cleaned).getD 0
  let m := (numBefore 'm' cleaned).getD 0
  let s := (numBefore 's' cleaned).getD 0
  .num ((h * 3600 + m * 60 + s : ℕ) : ℚ)

/-- Core of `parseDuration` (content.js lines 37–65, utils.js lines 35–63)
on a non-falsy string: with a colon present, split and `parseInt` each
trimmed part, return 0 if any part is NaN, interpret 2 parts as MM:SS and
3 parts as HH:MM:SS; any other shape (and colon-free input) falls through to
the text-format branch. -/
def parseDurationStr (s : String) : JSNum :=
  let cleaned := trimL s.data
  if cleaned.contains ':' then
    let parts := (splitCh ':' cleaned).map (fun p => jsParseIntL (trimL p))
    if parts.any (·.isNone) then .num 0
    else
      match parts with
      | [some a, some b] => .num ((a * 60 + b : ℤ) : ℚ)
      | [some a, some b, some c] => .num ((a * 3600 + b * 60 + c : ℤ) : ℚ)
      | _ => textDuration cleaned
  else textDuration cleaned

/-- JavaScript `parseDuration` with its falsy guard. -/
def parseDuration (t : JStr) : Except String JSNum :=
  if t.falsy then .ok (.num 0) else t.asStr.map parseDurationStr

/-- Search for the `parseVideoAge` regex `(\d+)\s+year/i`: a maximal digit
run followed by at least one whitespace character and then `year`
(case-insensitive). -/
def ageSearch : List Char → Option ℕ
  | [] => none
  | c :: cs =>
    if c.isDigit then
      let run := (c :: cs).takeWhile Char.isDigit
      let rest := (c :: cs).dropWhile Char.isDigit
      let ws := rest.takeWhile isWS
      let rest2 := rest.dropWhile isWS
      if ws ≠ [] ∧ (dropPrefixCI ['y','e','a','r'] rest2).isSome then
        some (natVal run)
      else ageSearch cs
    else ageSearch cs

/-- Core of `parseVideoAge` (content.js lines 72–76, utils.js lines 70–74)
on a non-falsy string. -/
def parseVideoAgeStr (s : String) : JSNum :=
  match ageSearch s.data with
  | some n => .num n
  | none => .num 0

/-- JavaScript `parseVideoAge` with its falsy guard. -/
def parseVideoAge (t : JStr) : Except String JSNum :=
  if t.falsy then .ok (.num 0) else t.asStr.map parseVideoAgeStr

/-- Rendering of a `JSNum` in a template literal.  JavaScript prints integral
doubles without a decimal point; only integral values are interpolated in the
statements below, so the non-integral fallback never matters there. -/
def showJSNum : JSNum → String
  | .nan => "NaN"
  | .posInf => "Infinity"
  | .negInf => "-Infinity"
  | .num q => if q.den = 1 then toString q.num else toString q

/-- Interpolation of a nullable string in a template literal. -/
def jstrText : JStr → String
  | .jnull => "null"
  | .jundef => "undefined"
  | .jstr s => s

/-- Unwrapping of a parser call at a site where the checker's falsy guard has
already ruled out nullish input, so the error branch is unreachable. -/
def expectOk (e : Except String JSNum) : JSNum :=
  match e with
  | .ok v => v
  | .error _ => .nan

/-- JavaScript `toLowerCase` (ASCII range, the only one exercised here). -/
def jsToLower (s : String) : String := String.mk (s.data.map Char.toLower)

/-- Substring test on character lists (JavaScript `String.prototype.includes`). -/
def listIncludes : List Char → List Char → Bool
  | [], n => n.isEmpty
  | c :: t, n => n.isPrefixOf (c :: t) || listIncludes t n

/-- JavaScript `hay.includes(needle)`. -/
def strIncludes (hay needle : String) : Bool := listIncludes hay.data needle.data

/-- Case-insensitive substring test (`needle` given lowercase): search for a
position where the needle matches case-insensitively. -/
def containsCI (needle : List Char) : List Char → Bool
  | [] => (dropPrefixCI needle []).isSome
  | c :: cs => (dropPrefixCI needle (c :: cs)).isSome || containsCI needle cs

/-- Normalized video record, the shape produced by `extractVideoData`: every
field is a string or `null`. -/
structure VideoData where
  title : JStr := .jnull
  viewCount : JStr := .jnull
  duration : JStr := .jnull
  publishTime : JStr := .jnull
  videoId : JStr := .jnull
deriving DecidableEq, Repr

/-- Filter settings as the checkers read them.  The two keyword-filter flags
coexist because the sources disagree on the property name: the checker in
content.js reads `settings.keywordsFilterEnabled` (content.js line 299) while
the modular filter-functions checker reads `settings.keywordFilterEnabled`. -/
structure Settings where
  viewsFilterEnabled : Bool
  durationFilterEnabled : Bool
  ageFilterEnabled : Bool
  keywordFilterEnabled : Bool
  keywordsFilterEnabled : Bool
  minViews : ℚ
  minDuration : ℚ
  maxDuration : ℚ
  maxAge : ℚ
  bannedKeywords : List String
deriving DecidableEq, Repr

/-- Filter decision object.  A declining checker returns `{shouldFilter:
false}` with no `reason`/`details` properties, modelled by `none`. -/
structure Decision where
  shouldFilter : Bool
  reason : Option String := none
  details : Option String := none
deriving DecidableEq, Repr

/-- Keyword scan loop of `checkKeywordsFilter`: first truthy keyword whose
lower-cased form occurs in the lower-cased title. -/
def findBannedKeyword (titleLower : String) : List String → Option String
  | [] => none
  | k :: ks =>
    if k ≠ "" ∧ strIncludes titleLower (jsToLower k) then some k
    else findBannedKeyword titleLower ks

namespace ContentJs

/-- content.js `checkViewsFilter` (lines 210–235): absent view count is
filtered with reason `no-views`; a parsed count below the minimum with
reason `views`. -/
def checkViewsFilter (videoData : VideoData) (settings : Settings) : Decision :=
  if settings.viewsFilterEnabled = false ∨ settings.minViews ≤ 0 then
    { shouldFilter := false }
  else if videoData.viewCount.falsy then
    { shouldFilter := true, reason := some "no-views",
      details := some "No view count (likely Mix/Playlist)" }
  else
    let views := expectOk (parseViewCount videoData.viewCount)
    if views.ltQ settings.minViews then
      { shouldFilter := true, reason := some "views",
        details := some ("Low views: " ++ jstrText videoData.viewCount ++
          " (" ++ showJSNum views ++ ")") }
    else { shouldFilter := false }

/-- content.js `checkDurationFilter` (lines 241–267): declines when disabled,
when both bounds are unset (falsy), or when the record has no duration. -/
def checkDurationFilter (videoData : VideoData) (settings : Settings) : Decision :=
  if settings.durationFilterEnabled = false then { shouldFilter := false }
  else if settings.minDuration = 0 ∧ settings.maxDuration = 0 then
    { shouldFilter := false }
  else if videoData.duration.falsy then { shouldFilter := false }
  else
    let durationSeconds := expectOk (parseDuration videoData.duration)
    let minOk : Bool :=
      decide (settings.minDuration = 0) || durationSeconds.geQ settings.minDuration
    let maxOk : Bool :=
      decide (settings.maxDuration = 0) || durationSeconds.leQ settings.maxDuration
    if minOk = false ∨ maxOk = false then
      { shouldFilter := true, reason := some "duration",
        details := some ("Duration: " ++ jstrText videoData.duration ++
          " (" ++ showJSNum durationSeconds ++ "s) outside range [" ++
          (if settings.minDuration = 0 then "0" else showJSNum (.num settings.minDuration)) ++
          ", " ++
          (if settings.maxDuration = 0 then "∞" else showJSNum (.num settings.maxDuration)) ++
          "]") }
    else { shouldFilter := false }

/-- content.js `checkAgeFilter` (lines 273–292). -/
def checkAgeFilter (videoData : VideoData) (settings : Settings) : Decision :=
  if settings.ageFilterEnabled = false ∨ settings.maxAge ≤ 0 then
    { shouldFilter := false }
  else if videoData.publishTime.falsy then { shouldFilter := false }
  else
    let videoAge := expectOk (parseVideoAge videoData.publishTime)
    if videoAge.gtQ settings.maxAge then
      { shouldFilter := true, reason := some "age",
        details := some ("Too old: " ++ jstrText videoData.publishTime ++
          " (" ++ showJSNum videoAge ++ " years)") }
    else { shouldFilter := false }

/-- content.js `checkKeywordsFilter` (lines 298–320); note the flag it reads
is `keywordsFilterEnabled`. -/
def checkKeywordsFilter (videoData : VideoData) (settings : Settings) : Decision :=
  if settings.keywordsFilterEnabled = false ∨ settings.bannedKeywords = [] then
    { shouldFilter := false }
  else if videoData.title.falsy then { shouldFilter := false }
  else
    let titleLower := jsToLower (jstrText videoData.title)
    match findBannedKeyword titleLower settings.bannedKeywords with
    | some keyword =>
      { shouldFilter := true, reason := some "keyword",
        details := some ("Banned keyword: \x22" ++ keyword ++ "\x22") }
    | none => { shouldFilter := false }

/-- The per-record filter array of `runAllFilters` (content.js lines 406–411). -/
def filtersFor (videoData : VideoData) (settings : Settings) : List Decision :=
  [checkViewsFilter videoData settings,
   checkDurationFilter videoData settings,
   checkAgeFilter videoData settings,
   checkKeywordsFilter videoData settings]

/-- The `filters.find(f => f.shouldFilter)` step (content.js line 414). -/
def triggeredFilter (videoData : VideoData) (settings : Settings) : Option Decision :=
  (filtersFor videoData settings).find? (·.shouldFilter)

end ContentJs

/-- Item container: the DOM video card as the scan loop sees it — the
`data-filtered` tag, the `data-filter-reason` attribute, the hidden state
and its content, abstracted as the record `extractVideoData` reads off it
(extraction is a pure function of the unchanged subtree). -/
structure Container where
  dataFiltered : Bool
  filterReason : Option String
  hidden : Bool
  data : VideoData
deriving DecidableEq, Repr

/-- Statistics object, modelled as a JavaScript object: an insertion-ordered
association list from property names to numbers, because the scan loop
increments at dynamically computed keys (`currentStats[reason]++`). -/
abbrev Stats := List (String × JSNum)

/-- Property read `m[k]`; `none` is `undefined`. -/
def statGet (m : Stats) (k : String) : Option JSNum :=
  (m.find? (fun p => p.1 == k)).map (·.2)

/-- The `++` step on a present property value: finite adds one, NaN stays. -/
def jsIncNum : JSNum → JSNum
  | .nan => .nan
  | .posInf => .posInf
  | .negInf => .negInf
  | .num q => .num (q + 1)

/-- JavaScript `m[k]++`: update the property in place when present; on an
absent property, `undefined + 1` is NaN, stored at a fresh key (insertion
order puts it last). -/
def statIncr (m : Stats) (k : String) : Stats :=
  if (m.find? (fun p => p.1 == k)).isSome then
    m.map (fun p => if p.1 == k then (p.1, jsIncNum p.2) else p)
  else m ++ [(k, .nan)]

/-- The per-run stats literal of content.js line 366 and the engine module:
`{ views: 0, keywords: 0, duration: 0, age: 0, total: 0 }`. -/
def initStats : Stats :=
  [("views", .num 0), ("keywords", .num 0), ("duration", .num 0),
   ("age", .num 0), ("total", .num 0)]

/-- Result of one scan pass: the containers (in order), the per-run delta,
the history writes (title, details) in call order, and the two counters. -/
structure ScanResult where
  containers : List Container
  delta : Stats
  history : List (String × Option String)
  processedCount : ℕ
  alreadyFilteredCount : ℕ
deriving DecidableEq, Repr

/-- The `videoData.title || "Unknown title"` step. -/
def titleOrUnknown (t : JStr) : String :=
  if t.falsy then "Unknown title" else jstrText t

/-- Empty accumulator at the start of a scan pass. -/
def emptyScan : ScanResult := ⟨[], initStats, [], 0, 0⟩

namespace ContentJs

/-- Body of the `videoCards.forEach` callback in `runAllFilters` (content.js
lines 380–431) as a state transformer: a container already carrying the
`data-filtered` attribute is only counted as already-filtered; otherwise the
record is extracted, the filters run, and on a triggered decision the
container is hidden and tagged, the delta incremented at the decision's
reason key and at `total`, and one history write emitted. -/
def stepContainer (settings : Settings) (acc : ScanResult) (c : Container) :
    ScanResult :=
  if c.dataFiltered then
    { acc with containers := acc.containers ++ [c],
               alreadyFilteredCount := acc.alreadyFilteredCount + 1 }
  else
    let videoData := c.data
    let title := titleOrUnknown videoData.title
    match triggeredFilter videoData settings with
    | some dec =>
      { containers := acc.containers ++
          [{ c with hidden := true, dataFiltered := true,
                    filterReason := dec.reason }],
        delta := statIncr (statIncr acc.delta (dec.reason.getD "undefined")) "total",
        history := acc.history ++ [(title, dec.details)],
        processedCount := acc.processedCount + 1,
        alreadyFilteredCount := acc.alreadyFilteredCount }
    | none =>
      { acc with containers := acc.containers ++ [c],
                 processedCount := acc.processedCount + 1 }

/-- The `forEach` loop over the enumerated cards. -/
def scanContainers (settings : Settings) : ScanResult → List Container → ScanResult
  | acc, [] => acc
  | acc, c :: cs => scanContainers settings (stepContainer settings acc c) cs

/-- content.js `runAllFilters` (lines 354–448) on the enumerated cards.  The
all-filters-disabled early return performs no scan and emits nothing, which
the model renders as unchanged containers with an all-zero delta.  The flag
it tests for the keyword filter is `keywordsFilterEnabled` (line 359). -/
def runAllFilters (settings : Settings) (videoCards : List Container) : ScanResult :=
  if settings.viewsFilterEnabled = false ∧ settings.durationFilterEnabled = false ∧
     settings.keywordsFilterEnabled = false ∧ settings.ageFilterEnabled = false then
    { emptyScan with containers := videoCards }
  else scanContainers settings emptyScan videoCards

end ContentJs

/-- History entry written by `storeFilteredVideo` / `addFilteredVideo`. -/
structure FilteredEntry where
  title : String
  reason : String
  timestamp : String
deriving DecidableEq, Repr

namespace ContentJs

/-- content.js `storeFilteredVideo` (lines 335–348) acting on the stored
list: push `{title, reason, timestamp}`, then drop the first element when the
length exceeds 100.  The timestamp (`new Date().toISOString()`) is passed in
as a parameter, abstracting the clock. -/
def storeFilteredVideo (videos : List FilteredEntry)
    (title reason timestamp : String) : List FilteredEntry :=
  let pushed := videos ++ [⟨title, reason, timestamp⟩]
  if 100 < pushed.length then pushed.tail else pushed

/-- View-count extraction step of `extractVideoData` (content.js lines
160–168): attempt of the regex `(\d+(?:\.\d+)?[KMB]?)\s*views?/i` at one
start position.  For this pattern backtracking never changes the result
(shrinking the digit run, the optional fraction or the optional suffix
always leaves a character that can match none of the following regex
elements), so the attempt is deterministic: maximal digit run, maximal
fraction when a dot-plus-digit follows, one optional suffix letter, maximal
whitespace, the word `view` case-insensitively, one optional trailing `s`.
Returns `match[0]` — the matched characters exactly as they appear. -/
def viewMatchAt (l : List Char) : Option (List Char) :=
  let ds := l.takeWhile Char.isDigit
  if ds = [] then none
  else
    let r1 := l.dropWhile Char.isDigit
    let fr : List Char × List Char :=
      match r1 with
      | '.' :: rr =>
        if rr.takeWhile Char.isDigit = [] then ([], r1)
        else ('.' :: rr.takeWhile Char.isDigit, rr.dropWhile Char.isDigit)
      | _ => ([], r1)
    let sf : List Char × List Char :=
      match fr.2 with
      | c :: rest =>
        if c.toLower = 'k' || c.toLower = 'm' || c.toLower = 'b' then ([c], rest)
        else ([], fr.2)
      | [] => ([], fr.2)
    let ws := sf.2.takeWhile isWS
    let r4 := sf.2.dropWhile isWS
    match dropPrefixCI ['v','i','e','w'] r4 with
    | none => none
    | some r5 =>
      let sTail : List Char :=
        match r5 with
        | c :: _ => if c.toLower = 's' then [c] else []
        | [] => []
      some (ds ++ fr.1 ++ sf.1 ++ ws ++ r4.take 4 ++ sTail)

/-- Leftmost-match search for the view-count regex over the card's full
visible text. -/
def viewCountSearch : List Char → Option (List Char)
  | [] => none
  | c :: cs =>
    match viewMatchAt (c :: cs) with
    | some m => some m
    | none => viewCountSearch cs

/-- The view-count field of `extractVideoData` as a function of the card's
`innerText` (content.js lines 160–168): the regex match when one exists,
else the sentinel string `"No views"` when a case-insensitive `No views?`
phrase occurs, else `null`. -/
def extractViewCount (fullText : String) : JStr :=
  match viewCountSearch fullText.data with
  | some m => .jstr (String.mk m)
  | none =>
    if containsCI ['n','o',' ','v','i','e','w'] fullText.data then .jstr "No views"
    else .jnull

end ContentJs

namespace Modular

/-- Modular filter-functions `checkViewsFilter` (filter-functions module
lines 20–45): identical to the content.js checker except that the absent
view-count branch reports reason `"views"`, not `"no-views"`. -/
def checkViewsFilter (videoData : VideoData) (settings : Settings) : Decision :=
  if settings.viewsFilterEnabled = false ∨ settings.minViews ≤ 0 then
    { shouldFilter := false }
  else if videoData.viewCount.falsy then
    { shouldFilter := true, reason := some "views",
      details := some "No view count (likely Mix/Playlist)" }
  else
    let views := expectOk (parseViewCount videoData.viewCount)
    if views.ltQ settings.minViews then
      { shouldFilter := true, reason := some "views",
        details := some ("Low views: " ++ jstrText videoData.viewCount ++
          " (" ++ showJSNum views ++ ")") }
    else { shouldFilter := false }

/-- Modular `checkDurationFilter` is verbatim identical to the content.js
one (it only routes the parser call through the utils module object). -/
def checkDurationFilter : VideoData → Settings → Decision :=
  ContentJs.checkDurationFilter

/-- Modular `checkAgeFilter` is verbatim identical to the content.js one. -/
def checkAgeFilter : VideoData → Settings → Decision :=
  ContentJs.checkAgeFilter

/-- Modular `checkKeywordsFilter` (filter-functions module lines 114–136):
the body matches content.js, but the flag it reads is
`keywordFilterEnabled` (no `s`). -/
def checkKeywordsFilter (videoData : VideoData) (settings : Settings) : Decision :=
  if settings.keywordFilterEnabled = false ∨ settings.bannedKeywords = [] then
    { shouldFilter := false }
  else if videoData.title.falsy then { shouldFilter := false }
  else
    let titleLower := jsToLower (jstrText videoData.title)
    match findBannedKeyword titleLower settings.bannedKeywords with
    | some keyword =>
      { shouldFilter := true, reason := some "keyword",
        details := some ("Banned keyword: \x22" ++ keyword ++ "\x22") }
    | none => { shouldFilter := false }

/-- Modular `checkChannelFilter`: a placeholder that always declines. -/
def checkChannelFilter : VideoData → Settings → Decision :=
  fun _ _ => { shouldFilter := false }

/-- Modular `getAllFilterFunctions`. -/
def getAllFilterFunctions : List (VideoData → Settings → Decision) :=
  [checkViewsFilter, checkDurationFilter, checkAgeFilter,
   checkKeywordsFilter, checkChannelFilter]

/-- The `for … of` loop of `applyAllFilters`: run the functions in order and
return the first triggering result. -/
def firstTriggered (videoData : VideoData) (settings : Settings) :
    List (VideoData → Settings → Decision) → Option Decision
  | [] => none
  | f :: fs =>
    let result := f videoData settings
    if result.shouldFilter then some result else firstTriggered videoData settings fs

/-- Modular `applyAllFilters` (filter-functions module lines 169–180):
first triggering decision, or `null` when every filter declines. -/
def applyAllFilters (videoData : VideoData) (settings : Settings) : Option Decision :=
  firstTriggered videoData settings getAllFilterFunctions

end Modular

namespace Engine

/-- Body of the `videoCards.forEach` callback in the filter-engine module's
`runFilters` (lines 106–150): the same loop shape as content.js, with the
decision produced by the modular `applyAllFilters` and the hide side effect
performed by `hideVideoElement` (which sets the same two attributes). -/
def stepContainer (settings : Settings) (acc : ScanResult) (c : Container) :
    ScanResult :=
  if c.dataFiltered then
    { acc with containers := acc.containers ++ [c],
               alreadyFilteredCount := acc.alreadyFilteredCount + 1 }
  else
    let videoData := c.data
    let title := titleOrUnknown videoData.title
    match Modular.applyAllFilters videoData settings with
    | some dec =>
      { containers := acc.containers ++
          [{ c with hidden := true, dataFiltered := true,
                    filterReason := dec.reason }],
        delta := statIncr (statIncr acc.delta (dec.reason.getD "undefined")) "total",
        history := acc.history ++ [(title, dec.details)],
        processedCount := acc.processedCount + 1,
        alreadyFilteredCount := acc.alreadyFilteredCount }
    | none =>
      { acc with containers := acc.containers ++ [c],
                 processedCount := acc.processedCount + 1 }

/-- The engine's `forEach` loop. -/
def scanContainers (settings : Settings) : ScanResult → List Container → ScanResult
  | acc, [] => acc
  | acc, c :: cs => scanContainers settings (stepContainer settings acc c) cs

/-- Filter-engine `runFilters` (engine module lines 70–171) on the
enumerated cards: a no-op unless one of the four enable flags is set (this
module tests `keywordFilterEnabled`, line 81). -/
def runFilters (settings : Settings) (videoCards : List Container) : ScanResult :=
  if settings.viewsFilterEnabled = false ∧ settings.durationFilterEnabled = false ∧
     settings.keywordFilterEnabled = false ∧ settings.ageFilterEnabled = false then
    { emptyScan with containers := videoCards }
  else scanContainers settings emptyScan videoCards

end Engine

namespace SettingsManager

/-- settings-manager.js `addFilteredVideo` (lines 116–139) acting on the
loaded list: push `{title, reason, timestamp}`, then drop the first element
when the length exceeds 100 — the same body as content.js
`storeFilteredVideo`. -/
def addFilteredVideo (videos : List FilteredEntry)
    (title reason timestamp : String) : List FilteredEntry :=
  let pushed := videos ++ [⟨title, reason, timestamp⟩]
  if 100 < pushed.length then pushed.tail else pushed

end SettingsManager

/-- Primitive JavaScript value in a raw settings object.  `vobj` stands for
any non-primitive, non-array value (and, as an array element, also for a
nested array): the validator only distinguishes those by `typeof`, under
which they all fail the `boolean`/`number`/`string` tests alike. -/
inductive JAtom where
  | undef
  | vnull
  | vbool (b : Bool)
  | vnum (x : JSNum)
  | vstr (s : String)
  | vobj
deriving DecidableEq, Repr

/-- Raw settings property: a primitive or an array of primitives. -/
inductive JVal where
  | atom (a : JAtom)
  | varr (l : List JAtom)
deriving DecidableEq, Repr

/-- JavaScript truthiness of a primitive. -/
def JAtom.truthy : JAtom → Bool
  | .undef => false
  | .vnull => false
  | .vbool b => b
  | .vnum x => match x with
    | .nan => false
    | .num q => decide (q ≠ 0)
    | _ => true
  | .vstr s => s ≠ ""
  | .vobj => true

/-- JavaScript truthiness of a raw settings property (arrays are truthy). -/
def JVal.truthy : JVal → Bool
  | .atom a => a.truthy
  | .varr _ => true

/-- Raw settings object of any shape, as `validateAndSanitizeSettings`
probes it: each property it reads, each possibly absent (`undef`). -/
structure RawSettings where
  viewsFilterEnabled : JVal := .atom .undef
  durationFilterEnabled : JVal := .atom .undef
  keywordFilterEnabled : JVal := .atom .undef
  ageFilterEnabled : JVal := .atom .undef
  minViews : JVal := .atom .undef
  minDuration : JVal := .atom .undef
  maxDuration : JVal := .atom .undef
  maxAge : JVal := .atom .undef
  bannedKeywords : JVal := .atom .undef
  maxAgeYears : JVal := .atom .undef
  keywords : JVal := .atom .undef
deriving DecidableEq, Repr

/-- JavaScript `Math.floor` (NaN and infinities pass through). -/
def jsFloorNum : JSNum → JSNum
  | .num q => .num (⌊q⌋ : ℚ)
  | x => x

namespace SettingsManager

/-- The boolean-settings block of `validateAndSanitizeSettings`
(settings-manager.js lines 166–170): keep the input when `typeof` is
`boolean`, else keep the default. -/
def boolField (inp dflt : JVal) : JVal :=
  match inp with
  | .atom (.vbool b) => .atom (.vbool b)
  | _ => dflt

/-- The `typeof x === 'number' && x >= 0 → Math.floor(x)` blocks for
`minViews` / `minDuration` / `maxDuration` (lines 173–183). -/
def nonnegNumField (inp dflt : JVal) : JVal :=
  match inp with
  | .atom (.vnum x) => if x.geQ 0 then .atom (.vnum (jsFloorNum x)) else dflt
  | _ => dflt

/-- The `maxAge` block (lines 185–187), which additionally bounds the value
by 20. -/
def maxAgeField (inp dflt : JVal) : JVal :=
  match inp with
  | .atom (.vnum x) => if x.geQ 0 && x.leQ 20 then .atom (.vnum (jsFloorNum x)) else dflt
  | _ => dflt

/-- Element test of the keywords filter step (line 192): a string whose trim
is non-empty. -/
def keywordKeep : JAtom → Bool
  | .vstr s => trimL s.data ≠ []
  | _ => false

/-- Element map of the keywords step (line 193): trim, then lower-case. -/
def keywordMap : JAtom → JAtom
  | .vstr s => .vstr (jsToLower (String.mk (trimL s.data)))
  | a => a

/-- The `bannedKeywords` block (lines 190–194): arrays are filtered to
non-blank strings and normalized; anything else keeps the default. -/
def keywordsField (inp dflt : JVal) : JVal :=
  match inp with
  | .varr l => .varr ((l.filter keywordKeep).map keywordMap)
  | _ => dflt

/-- settings-manager.js `validateAndSanitizeSettings` (lines 162–206):
start from `{...DEFAULT_FILTER_SETTINGS}`, conditionally overwrite each
field from the input, then apply the two legacy-compatibility overrides —
which copy the raw, unvalidated legacy values `maxAgeYears` / `keywords`
into the result whenever the legacy key is truthy and the modern key
falsy (lines 197–203). -/
def validateAndSanitizeSettings (s : RawSettings) : RawSettings :=
  let validated : RawSettings :=
    { viewsFilterEnabled := boolField s.viewsFilterEnabled (.atom (.vbool true))
      durationFilterEnabled := boolField s.durationFilterEnabled (.atom (.vbool true))
      keywordFilterEnabled := boolField s.keywordFilterEnabled (.atom (.vbool true))
      ageFilterEnabled := boolField s.ageFilterEnabled (.atom (.vbool true))
      minViews := nonnegNumField s.minViews (.atom (.vnum (.num 10000)))
      minDuration := nonnegNumField s.minDuration (.atom (.vnum (.num 60)))
      maxDuration := nonnegNumField s.maxDuration (.atom (.vnum (.num 3600)))
      maxAge := maxAgeField s.maxAge (.atom (.vnum (.num 5)))
      bannedKeywords := keywordsField s.bannedKeywords
        (.varr [.vstr "spoiler", .vstr "clickbait", .vstr "sponsor"])
      maxAgeYears := .atom .undef
      keywords := .atom .undef }
  let v2 :=
    if s.maxAgeYears.truthy = true ∧ s.maxAge.truthy = false then
      { validated with maxAge := s.maxAgeYears }
    else validated
  if s.keywords.truthy = true ∧ s.bannedKeywords.truthy = false then
    { v2 with bannedKeywords := s.keywords }
  else v2

end SettingsManager

/-- Settings fixture: views filter alone, `minViews = 10000` (the other
filters off, thresholds unset). -/
def sViews10000 : Settings :=
  { viewsFilterEnabled := true, durationFilterEnabled := false,
    ageFilterEnabled := false, keywordFilterEnabled := false,
    keywordsFilterEnabled := false, minViews := 10000, minDuration := 0,
    maxDuration := 0, maxAge := 0, bannedKeywords := [] }

/-- Settings fixture: keyword filter alone, banned list `["spoiler"]` (both
spellings of the enable flag set, so either checker variant is active). -/
def sKeywordOnly : Settings :=
  { viewsFilterEnabled := false, durationFilterEnabled := false,
    ageFilterEnabled := false, keywordFilterEnabled := true,
    keywordsFilterEnabled := true, minViews := 10000, minDuration := 0,
    maxDuration := 0, maxAge := 0, bannedKeywords := ["spoiler"] }

/-- Settings fixture: views and keyword filters enabled together. -/
def sViewsAndKeyword : Settings :=
  { viewsFilterEnabled := true, durationFilterEnabled := false,
    ageFilterEnabled := false, keywordFilterEnabled := true,
    keywordsFilterEnabled := true, minViews := 10000, minDuration := 0,
    maxDuration := 0, maxAge := 0, bannedKeywords := ["spoiler"] }

/-- Record fixture: a banned keyword in the title and no view-count text —
it fails both the views predicate and the keyword predicate. -/
def dTie : VideoData := { title := .jstr "spoiler video", viewCount := .jnull }

/-- Untagged container fixture around `dTie`. -/
def cTie : Container :=
  { dataFiltered := false, filterReason := none, hidden := false, data := dTie }

/-- Untagged container fixture with an entirely empty record. -/
def cNoViews : Container :=
  { dataFiltered := false, filterReason := none, hidden := false, data := {} }

/-- Untagged container fixture whose title carries the banned keyword. -/
def cKeyword : Container :=
  { dataFiltered := false, filterReason := none, hidden := false,
    data := { title := .jstr "spoiler video" } }

/-- Container fixture already carrying a decision tag from a previous scan. -/
def cTagged : Container :=
  { dataFiltered := true, filterReason := some "views", hidden := true, data := {} }

/-- Raw-settings fixture for the legacy override: only the legacy key
`maxAgeYears` is present, holding 50. -/
def legacyInput : RawSettings := { maxAgeYears := .atom (.vnum (.num 50)) }

/-- Raw-settings fixture without legacy keys: a negative `minViews` (to be
replaced by its default) and a keyword list in need of normalization. -/
def rawSample : RawSettings :=
  { minViews := .atom (.vnum (.num (-3))),
    bannedKeywords := .varr [.vstr "  SPOILER "] }

/-! ### Helper lemmas: concrete `parseViewCount` evaluations

The string processing reduces definitionally; the final rational arithmetic
does not (`Rat` operations normalize through `Nat.gcd`), so each evaluation
is split into a definitional step and a `norm_num` step. -/

theorem pvs_14K : parseViewCountStr "1.4K views" = .num 1400 := by
  have h : parseViewCountStr "1.4K views"
      = (JSNum.num ((natVal ['1'] : ℚ) + fracVal ['4'])).mulPos 1000 := rfl
  rw [h]
  have h1 : natVal ['1'] = 1 := by decide
  have h2 : natVal ['4'] = 4 := by decide
  simp only [JSNum.mulPos, fracVal, h1, h2]
  norm_num

theorem pvs_14K_lower : parseViewCountStr "1.4k views" = .num 1400 := by
  have h : parseViewCountStr "1.4k views"
      = (JSNum.num ((natVal ['1'] : ℚ) + fracVal ['4'])).mulPos 1000 := rfl
  rw [h]
  have h1 : natVal ['1'] = 1 := by decide
  have h2 : natVal ['4'] = 4 := by decide
  simp only [JSNum.mulPos, fracVal, h1, h2]
  norm_num

theorem pvs_23M : parseViewCountStr "2.3M" = .num 2300000 := by
  have h : parseViewCountStr "2.3M"
      = (JSNum.num ((natVal ['2'] : ℚ) + fracVal ['3'])).mulPos 1000000 := rfl
  rw [h]
  have h1 : natVal ['2'] = 2 := by decide
  have h2 : natVal ['3'] = 3 := by decide
  simp only [JSNum.mulPos, fracVal, h1, h2]
  norm_num

theorem pvs_1B : parseViewCountStr "1B" = .num 1000000000 := by
  have h : parseViewCountStr "1B"
      = (JSNum.num ((natVal ['1'] : ℚ) + fracVal [])).mulPos 1000000000 := rfl
  rw [h]
  have h1 : natVal ['1'] = 1 := by decide
  have h2 : natVal [] = 0 := by decide
  simp only [JSNum.mulPos, fracVal, h1, h2]
  norm_num

theorem pvs_commas : parseViewCountStr "1,234,567 views" = .num 1234567 := by
  have h : parseViewCountStr "1,234,567 views"
      = .num ((natVal ['1','2','3','4','5','6','7'] : ℚ) + fracVal []) := rfl
  rw [h]
  have h1 : natVal ['1','2','3','4','5','6','7'] = 1234567 := by decide
  have h2 : natVal [] = 0 := by decide
  simp only [fracVal, h1, h2]
  norm_num

theorem pvs_500 : parseViewCountStr "500" = .num 500 := by
  have h : parseViewCountStr "500"
      = .num ((natVal ['5','0','0'] : ℚ) + fracVal []) := rfl
  rw [h]
  have h1 : natVal ['5','0','0'] = 500 := by decide
  have h2 : natVal [] = 0 := by decide
  simp only [fracVal, h1, h2]
  norm_num

/-! ### Helper lemmas: character-list facts for the duration parser -/

theorem isWS_false_of_isDigit {c : Char} (h : c.isDigit = true) : isWS c = false := by
  by_cases h1 : c = ' '
  · rw [h1] at h; exact absurd h (by decide)
  by_cases h2 : c = '\t'
  · rw [h2] at h; exact absurd h (by decide)
  by_cases h3 : c = '\n'
  · rw [h3] at h; exact absurd h (by decide)
  by_cases h4 : c = '\r'
  · rw [h4] at h; exact absurd h (by decide)
  by_cases h5 : c = '\x0b'
  · rw [h5] at h; exact absurd h (by decide)
  by_cases h6 : c = '\x0c'
  · rw [h6] at h; exact absurd h (by decide)
  simp [isWS, h1, h2, h3, h4, h5, h6]

theorem dropWhile_eq_self_of_forall {α} (p : α → Bool) (l : List α)
    (h : ∀ c ∈ l, p c = false) : l.dropWhile p = l := by
  cases l with
  | nil => rfl
  | cons a t => simp [List.dropWhile_cons, h a (by simp)]

theorem takeWhile_eq_self_of_forall {α} (p : α → Bool) (l : List α)
    (h : ∀ c ∈ l, p c = true) : l.takeWhile p = l := by
  induction l with
  | nil => rfl
  | cons a t ih =>
    simp only [List.takeWhile_cons, h a (by simp), if_true]
    rw [ih (fun c hc => h c (by simp [hc]))]

theorem trimL_eq_self {l : List Char} (h : ∀ c ∈ l, isWS c = false) : trimL l = l := by
  unfold trimL
  rw [dropWhile_eq_self_of_forall _ _ h,
      dropWhile_eq_self_of_forall _ _ (fun c hc => h c (List.mem_reverse.mp hc)),
      List.reverse_reverse]

theorem jsParseIntL_digits {l : List Char} (hne : l ≠ [])
    (hd : ∀ c ∈ l, c.isDigit = true) : jsParseIntL l = some (natVal l : ℤ) := by
  obtain ⟨a, t, rfl⟩ := List.exists_cons_of_ne_nil hne
  have ha := hd a (by simp)
  have hws : (a :: t).dropWhile isWS = a :: t :=
    dropWhile_eq_self_of_forall _ _ (fun c hc => isWS_false_of_isDigit (hd c hc))
  have hminus : a ≠ '-' := by intro e; rw [e] at ha; exact absurd ha (by decide)
  have hplus : a ≠ '+' := by intro e; rw [e] at ha; exact absurd ha (by decide)
  have htk : (a :: t).takeWhile Char.isDigit = a :: t :=
    takeWhile_eq_self_of_forall _ _ hd
  unfold jsParseIntL
  simp only [hws, if_neg hminus, if_neg hplus, htk]
  simp

theorem splitCh_not_mem {sep : Char} {l : List Char} (h : sep ∉ l) :
    splitCh sep l = [l] := by
  induction l with
  | nil => rfl
  | cons a t ih =>
    have ha : ¬(a = sep) := fun e => h (by simp [e])
    simp only [splitCh, if_neg ha]
    rw [ih (fun hm => h (by simp [hm]))]

theorem splitCh_append {sep : Char} {a b : List Char} (h : sep ∉ a) :
    splitCh sep (a ++ sep :: b) = a :: splitCh sep b := by
  induction a with
  | nil => simp [splitCh]
  | cons x t ih =>
    have hx : ¬(x = sep) := fun e => h (by simp [e])
    rw [List.cons_append]
    simp only [splitCh, if_neg hx]
    rw [ih (fun hm => h (by simp [hm]))]

/-- General evaluation of the MM:SS branch on digit parts. -/
theorem parseDurationStr_two_parts (a b : List Char) (ha : a ≠ []) (hb : b ≠ [])
    (hda : ∀ c ∈ a, c.isDigit = true) (hdb : ∀ c ∈ b, c.isDigit = true) :
    parseDurationStr (String.mk (a ++ ':' :: b)) = .num (60 * natVal a + natVal b) := by
  have hnws : ∀ c ∈ a ++ ':' :: b, isWS c = false := by
    intro c hc
    rcases List.mem_append.mp hc with h1 | h1
    · exact isWS_false_of_isDigit (hda c h1)
    · rcases List.mem_cons.mp h1 with rfl | h2
      · decide
      · exact isWS_false_of_isDigit (hdb c h2)
  have hca : ':' ∉ a := fun hm => absurd (hda ':' hm) (by decide)
  have hcb : ':' ∉ b := fun hm => absurd (hdb ':' hm) (by decide)
  have hcontain : (a ++ ':' :: b).contains ':' = true := by simp
  have hwa : ∀ c ∈ a, isWS c = false := fun c hc => isWS_false_of_isDigit (hda c hc)
  have hwb : ∀ c ∈ b, isWS c = false := fun c hc => isWS_false_of_isDigit (hdb c hc)
  unfold parseDurationStr
  simp only [trimL_eq_self hnws, hcontain, if_true, splitCh_append hca,
    splitCh_not_mem hcb, List.map_cons, List.map_nil, trimL_eq_self hwa,
    trimL_eq_self hwb, jsParseIntL_digits ha hda, jsParseIntL_digits hb hdb,
    List.any_cons, List.any_nil, Option.isNone_some, Bool.or_self,
    Bool.false_or, Bool.or_false, if_false]
  push_cast
  ring_nf

/-- General evaluation of the HH:MM:SS branch on digit parts. -/
theorem parseDurationStr_three_parts (a b c : List Char) (ha : a ≠ []) (hb : b ≠ [])
    (hc : c ≠ []) (hda : ∀ x ∈ a, x.isDigit = true) (hdb : ∀ x ∈ b, x.isDigit = true)
    (hdc : ∀ x ∈ c, x.isDigit = true) :
    parseDurationStr (String.mk (a ++ ':' :: (b ++ ':' :: c)))
      = .num (3600 * natVal a + 60 * natVal b + natVal c) := by
  have hnws : ∀ x ∈ a ++ ':' :: (b ++ ':' :: c), isWS x = false := by
    intro x hx
    rcases List.mem_append.mp hx with h1 | h1
    · exact isWS_false_of_isDigit (hda x h1)
    · rcases List.mem_cons.mp h1 with rfl | h2
      · decide
      · rcases List.mem_append.mp h2 with h3 | h3
        · exact isWS_false_of_isDigit (hdb x h3)
        · rcases List.mem_cons.mp h3 with rfl | h4
          · decide
          · exact isWS_false_of_isDigit (hdc x h4)
  have hca : ':' ∉ a := fun hm => absurd (hda ':' hm) (by decide)
  have hcb : ':' ∉ b := fun hm => absurd (hdb ':' hm) (by decide)
  have hcc : ':' ∉ c := fun hm => absurd (hdc ':' hm) (by decide)
  have hcontain : (a ++ ':' :: (b ++ ':' :: c)).contains ':' = true := by simp
  have hwa : ∀ x ∈ a, isWS x = false := fun x hx => isWS_false_of_isDigit (hda x hx)
  have hwb : ∀ x ∈ b, isWS x = false := fun x hx => isWS_false_of_isDigit (hdb x hx)
  have hwc : ∀ x ∈ c, isWS x = false := fun x hx => isWS_false_of_isDigit (hdc x hx)
  unfold parseDurationStr
  simp only [trimL_eq_self hnws, hcontain, if_true, splitCh_append hca,
    splitCh_append hcb, splitCh_not_mem hcc, List.map_cons, List.map_nil,
    trimL_eq_self hwa, trimL_eq_self hwb, trimL_eq_self hwc,
    jsParseIntL_digits ha hda, jsParseIntL_digits hb hdb, jsParseIntL_digits hc hdc,
    List.any_cons, List.any_nil, Option.isNone_some, Bool.or_self,
    Bool.false_or, Bool.or_false, if_false]
  push_cast
  ring_nf

/-- The colon branch returns 0 as soon as any `parseInt` of a part is NaN. -/
theorem parseDurationStr_nan_part (s : String)
    (h1 : (trimL s.data).contains ':' = true)
    (h2 : ((splitCh ':' (trimL s.data)).map
            (fun p => jsParseIntL (trimL p))).any (·.isNone) = true) :
    parseDurationStr s = .num 0 := by
  unfold parseDurationStr
  simp only [h1, h2, if_true]

/-! ### Claim C6 -/

/-- C6, counterexample: the claim says any non-numeric colon-separated part
forces a result of 0, but `"1x:05"` — whose first part `1x` is not a numeral
(`x` is not a digit) — parses to 65: `parseInt("1x")` reads the leading `1`
and is not NaN, so the MM:SS branch computes `1*60 + 5`. -/
theorem parseDuration_garbage_part_not_zero :
    parseDuration (.jstr "1x:05") = .ok (.num 65) ∧
    splitCh ':' (trimL "1x:05".data) = [['1', 'x'], ['0', '5']] ∧
    'x'.isDigit = false ∧
    JSNum.num 65 ≠ JSNum.num 0 :=
  ⟨rfl, rfl, rfl, by decide⟩

/-- C6 (amended): for duration strings containing a colon, `parseDuration`
splits on `:` and reads 2 parts as MM:SS and 3 parts as HH:MM:SS, returning
the exact total seconds (`"12:05" → 725`, `"1:23:45" → 5025`, and in general
for any all-digit parts), and returns 0 whenever some part's `parseInt` is
NaN, i.e. the part does not begin with an optional sign followed by a digit;
a part with trailing non-digits after leading digits is read as its leading
integer rather than forcing 0. -/
theorem parseDuration_colon_formats :
    parseDuration (.jstr "12:05") = .ok (.num 725) ∧
    parseDuration (.jstr "1:23:45") = .ok (.num 5025) ∧
    parseDuration (.jstr "a:b") = .ok (.num 0) ∧
    (∀ a b : List Char, a ≠ [] → b ≠ [] →
      (∀ c ∈ a, c.isDigit = true) → (∀ c ∈ b, c.isDigit = true) →
      parseDurationStr (String.mk (a ++ ':' :: b)) = .num (60 * natVal a + natVal b)) ∧
    (∀ a b c : List Char, a ≠ [] → b ≠ [] → c ≠ [] →
      (∀ x ∈ a, x.isDigit = true) → (∀ x ∈ b, x.isDigit = true) →
      (∀ x ∈ c, x.isDigit = true) →
      parseDurationStr (String.mk (a ++ ':' :: (b ++ ':' :: c)))
        = .num (3600 * natVal a + 60 * natVal b + natVal c)) ∧
    (∀ s : String, (trimL s.data).contains ':' = true →
      ((splitCh ':' (trimL s.data)).map
        (fun p => jsParseIntL (trimL p))).any (·.isNone) = true →
      parseDurationStr s = .num 0) :=
  ⟨rfl, rfl, rfl, parseDurationStr_two_parts, parseDurationStr_three_parts,
   parseDurationStr_nan_part⟩

/-- C6 witness: the general parts of the theorem applied to the concrete
splits of `"7:09"` and `"2:03:04"` and to the NaN-part input `"a:b"`. -/
theorem parseDuration_colon_formats_witness :
    parseDurationStr (String.mk (['7'] ++ ':' :: ['0', '9']))
      = .num (60 * natVal ['7'] + natVal ['0', '9']) ∧
    parseDurationStr (String.mk (['2'] ++ ':' :: (['0', '3'] ++ ':' :: ['0', '4'])))
      = .num (3600 * natVal ['2'] + 60 * natVal ['0', '3'] + natVal ['0', '4']) ∧
    parseDurationStr "a:b" = .num 0 :=
  ⟨parseDuration_colon_formats.2.2.2.1 ['7'] ['0', '9']
      (by decide) (by decide) (by decide) (by decide),
   parseDuration_colon_formats.2.2.2.2.1 ['2'] ['0', '3'] ['0', '4']
      (by decide) (by decide) (by decide) (by decide) (by decide) (by decide),
   parseDuration_colon_formats.2.2.2.2.2 "a:b" (by decide) (by decide)⟩

/-! ### Claim C7 -/

/-- C7, counterexample: the extractor does record the `"No views"` sentinel,
but downstream it is *not* treated as "no view data": `checkViewsFilter`
finds the string truthy, parses it to 0 and filters it through the low-views
branch with reason `"views"` and details `"Low views: No views (0)"` — i.e.
precisely as a parsed view count of zero, not via the missing-data branch
(reason `"no-views"`). -/
theorem sentinel_treated_as_zero_downstream :
    ContentJs.extractViewCount "No views · 3 days ago" = .jstr "No views" ∧
    parseViewCount (.jstr "No views") = .ok (.num 0) ∧
    ContentJs.checkViewsFilter { viewCount := .jstr "No views" } sViews10000 =
      { shouldFilter := true, reason := some "views",
        details := some "Low views: No views (0)" } ∧
    some "views" ≠ some "no-views" :=
  ⟨rfl, rfl, rfl, by decide⟩

/-- C7 (amended): when a container's visible text matches no numeric
view-count pattern but contains a bare `No views` phrase, the extractor
records the sentinel string `"No views"` distinctly from numeric absence
(`null`); downstream the sentinel is a truthy string that `parseViewCount`
maps to 0, so the views checker filters it through the low-views branch with
reason `"views"` — it is treated as a parsed view count of zero, not routed
to the missing-data branch. -/
theorem no_views_sentinel_extraction_and_downstream :
    (∀ t : String, ContentJs.viewCountSearch t.data = none →
      containsCI ['n', 'o', ' ', 'v', 'i', 'e', 'w'] t.data = true →
      ContentJs.extractViewCount t = .jstr "No views") ∧
    (∀ (d : VideoData) (s : Settings), d.viewCount = .jstr "No views" →
      s.viewsFilterEnabled = true → s.minViews = 10000 →
      ContentJs.checkViewsFilter d s =
        { shouldFilter := true, reason := some "views",
          details := some "Low views: No views (0)" }) := by
  constructor
  · intro t h1 h2
    unfold ContentJs.extractViewCount
    rw [h1, h2]
    simp
  · intro d s hV hE hM
    unfold ContentJs.checkViewsFilter
    rw [hV, hE, hM]
    norm_num
    rfl

/-- C7 witness: the theorem applied to the concrete text
`"No views · 3 days ago"` and to a concrete record and settings. -/
theorem no_views_sentinel_extraction_and_downstream_witness :
    ContentJs.extractViewCount "No views · 3 days ago" = .jstr "No views" ∧
    ContentJs.checkViewsFilter { viewCount := .jstr "No views" } sViews10000 =
      { shouldFilter := true, reason := some "views",
        details := some "Low views: No views (0)" } :=
  ⟨no_views_sentinel_extraction_and_downstream.1 "No views · 3 days ago" rfl rfl,
   no_views_sentinel_extraction_and_downstream.2
     { viewCount := .jstr "No views" } sViews10000 rfl rfl rfl⟩

/-! ### Claim C2 -/

/-- C2, counterexample: the claim says a null view count is filtered with
reason `"no-views"`, but the modular filter-functions `checkViewsFilter`
(one of the two implementations the claim covers) reports reason `"views"`
for that record. -/
theorem modular_views_null_reason_not_no_views :
    Modular.checkViewsFilter { viewCount := .jnull } sViews10000 =
      { shouldFilter := true, reason := some "views",
        details := some "No view count (likely Mix/Playlist)" } ∧
    some "views" ≠ some "no-views" := ⟨rfl, by decide⟩

/-- C2 (amended): with the views filter enabled and `minViews = 10000`,
every record with a null view count is filtered — with reason `"no-views"`
by the content.js checker and reason `"views"` by the modular
filter-functions checker; and a record with a null duration is never
filtered by the duration checker (either implementation), regardless of the
bounds. -/
theorem views_null_filtered_duration_null_passes :
    (∀ (d : VideoData) (s : Settings), s.viewsFilterEnabled = true →
      s.minViews = 10000 → d.viewCount = .jnull →
      ContentJs.checkViewsFilter d s =
        { shouldFilter := true, reason := some "no-views",
          details := some "No view count (likely Mix/Playlist)" }) ∧
    (∀ (d : VideoData) (s : Settings), s.viewsFilterEnabled = true →
      s.minViews = 10000 → d.viewCount = .jnull →
      Modular.checkViewsFilter d s =
        { shouldFilter := true, reason := some "views",
          details := some "No view count (likely Mix/Playlist)" }) ∧
    (∀ (d : VideoData) (s : Settings), d.duration = .jnull →
      ContentJs.checkDurationFilter d s = { shouldFilter := false }) ∧
    (∀ (d : VideoData) (s : Settings), d.duration = .jnull →
      Modular.checkDurationFilter d s = { shouldFilter := false }) := by
  have hdur : ∀ (d : VideoData) (s : Settings), d.duration = .jnull →
      ContentJs.checkDurationFilter d s = { shouldFilter := false } := by
    intro d s hD
    unfold ContentJs.checkDurationFilter
    rw [hD]
    split_ifs with h1 h2 h3 <;> first | rfl | (exact absurd h3 (by decide))
  refine ⟨?_, ?_, hdur, hdur⟩
  · intro d s hE hM hV
    unfold ContentJs.checkViewsFilter
    rw [hE, hM, hV]
    norm_num
    intro hx
    exact absurd hx (by decide)
  · intro d s hE hM hV
    unfold Modular.checkViewsFilter
    rw [hE, hM, hV]
    norm_num
    intro hx
    exact absurd hx (by decide)

/-- C2 witness: the theorem applied to a concrete null-view-count record and
a concrete null-duration record under the views-only settings fixture. -/
theorem views_null_filtered_duration_null_passes_witness :
    ContentJs.checkViewsFilter { viewCount := .jnull } sViews10000 =
      { shouldFilter := true, reason := some "no-views",
        details := some "No view count (likely Mix/Playlist)" } ∧
    ContentJs.checkDurationFilter { duration := .jnull } sViews10000 =
      { shouldFilter := false } :=
  ⟨views_null_filtered_duration_null_passes.1 { viewCount := .jnull } sViews10000
      rfl rfl rfl,
   views_null_filtered_duration_null_passes.2.2.1 { duration := .jnull } sViews10000 rfl⟩

/-! ### Claim C4 -/

/-- C4, counterexample: a record failing both the views predicate (null view
count) and the keyword predicate (banned word in the title) with both
filters enabled is decided by the content.js orchestrator with reason
`"no-views"` — not `"views"` as the claim states. -/
theorem contentjs_tiebreak_reason_not_views :
    (ContentJs.checkViewsFilter dTie sViewsAndKeyword).shouldFilter = true ∧
    (ContentJs.checkKeywordsFilter dTie sViewsAndKeyword).shouldFilter = true ∧
    ContentJs.triggeredFilter dTie sViewsAndKeyword =
      some { shouldFilter := true, reason := some "no-views",
             details := some "No view count (likely Mix/Playlist)" } ∧
    some "no-views" ≠ some "views" := ⟨rfl, rfl, rfl, by decide⟩

/-- C4 (amended): both orchestrators evaluate the predicates in the fixed
order views, duration, age, keyword and return the first decision with
`shouldFilter = true`, or no decision when all decline (the modular
orchestrator additionally runs a fifth, always-declining channel filter
last).  Whenever the views predicate triggers — in particular on a record
failing both the views and keyword predicates with both filters enabled —
the returned decision is the views decision: its reason is `"views"` or
(content.js, absent view count) `"no-views"`, never `"keyword"`. -/
theorem orchestrator_first_match_views_priority :
    (∀ (d : VideoData) (s : Settings),
      ContentJs.triggeredFilter d s =
        (if (ContentJs.checkViewsFilter d s).shouldFilter then
          some (ContentJs.checkViewsFilter d s)
        else if (ContentJs.checkDurationFilter d s).shouldFilter then
          some (ContentJs.checkDurationFilter d s)
        else if (ContentJs.checkAgeFilter d s).shouldFilter then
          some (ContentJs.checkAgeFilter d s)
        else if (ContentJs.checkKeywordsFilter d s).shouldFilter then
          some (ContentJs.checkKeywordsFilter d s)
        else none)) ∧
    (∀ (d : VideoData) (s : Settings),
      Modular.applyAllFilters d s =
        (if (Modular.checkViewsFilter d s).shouldFilter then
          some (Modular.checkViewsFilter d s)
        else if (Modular.checkDurationFilter d s).shouldFilter then
          some (Modular.checkDurationFilter d s)
        else if (Modular.checkAgeFilter d s).shouldFilter then
          some (Modular.checkAgeFilter d s)
        else if (Modular.checkKeywordsFilter d s).shouldFilter then
          some (Modular.checkKeywordsFilter d s)
        else none)) ∧
    (∀ (d : VideoData) (s : Settings),
      (ContentJs.checkViewsFilter d s).shouldFilter = true →
      ContentJs.triggeredFilter d s = some (ContentJs.checkViewsFilter d s) ∧
      ((ContentJs.checkViewsFilter d s).reason = some "views" ∨
       (ContentJs.checkViewsFilter d s).reason = some "no-views") ∧
      (ContentJs.triggeredFilter d s).map Decision.reason ≠ some (some "keyword")) ∧
    (∀ (d : VideoData) (s : Settings),
      (Modular.checkViewsFilter d s).shouldFilter = true →
      Modular.applyAllFilters d s = some (Modular.checkViewsFilter d s) ∧
      (Modular.checkViewsFilter d s).reason = some "views") := by
  have hcj : ∀ (d : VideoData) (s : Settings),
      ContentJs.triggeredFilter d s =
        (if (ContentJs.checkViewsFilter d s).shouldFilter then
          some (ContentJs.checkViewsFilter d s)
        else if (ContentJs.checkDurationFilter d s).shouldFilter then
          some (ContentJs.checkDurationFilter d s)
        else if (ContentJs.checkAgeFilter d s).shouldFilter then
          some (ContentJs.checkAgeFilter d s)
        else if (ContentJs.checkKeywordsFilter d s).shouldFilter then
          some (ContentJs.checkKeywordsFilter d s)
        else none) := by
    intro d s
    unfold ContentJs.triggeredFilter ContentJs.filtersFor
    cases hv : (ContentJs.checkViewsFilter d s).shouldFilter <;>
      cases hd : (ContentJs.checkDurationFilter d s).shouldFilter <;>
        cases ha : (ContentJs.checkAgeFilter d s).shouldFilter <;>
          cases hk : (ContentJs.checkKeywordsFilter d s).shouldFilter <;>
            simp [List.find?, hv, hd, ha, hk]
  have hmod : ∀ (d : VideoData) (s : Settings),
      Modular.applyAllFilters d s =
        (if (Modular.checkViewsFilter d s).shouldFilter then
          some (Modular.checkViewsFilter d s)
        else if (Modular.checkDurationFilter d s).shouldFilter then
          some (Modular.checkDurationFilter d s)
        else if (Modular.checkAgeFilter d s).shouldFilter then
          some (Modular.checkAgeFilter d s)
        else if (Modular.checkKeywordsFilter d s).shouldFilter then
          some (Modular.checkKeywordsFilter d s)
        else none) := by
    intro d s
    unfold Modular.applyAllFilters Modular.getAllFilterFunctions Modular.firstTriggered
    cases hv : (Modular.checkViewsFilter d s).shouldFilter <;>
      cases hd : (Modular.checkDurationFilter d s).shouldFilter <;>
        cases ha : (Modular.checkAgeFilter d s).shouldFilter <;>
          cases hk : (Modular.checkKeywordsFilter d s).shouldFilter <;>
            simp [Modular.firstTriggered, Modular.checkChannelFilter, hv, hd, ha, hk]
  have hvreason : ∀ (d : VideoData) (s : Settings),
      (ContentJs.checkViewsFilter d s).shouldFilter = true →
      ((ContentJs.checkViewsFilter d s).reason = some "views" ∨
       (ContentJs.checkViewsFilter d s).reason = some "no-views") := by
    intro d s h
    unfold ContentJs.checkViewsFilter at h ⊢
    split_ifs at h ⊢ <;>
      cases hlt : (expectOk (parseViewCount d.viewCount)).ltQ s.minViews <;> simp_all
  have hmreason : ∀ (d : VideoData) (s : Settings),
      (Modular.checkViewsFilter d s).shouldFilter = true →
      (Modular.checkViewsFilter d s).reason = some "views" := by
    intro d s h
    unfold Modular.checkViewsFilter at h ⊢
    split_ifs at h ⊢ <;>
      cases hlt : (expectOk (parseViewCount d.viewCount)).ltQ s.minViews <;> simp_all
  refine ⟨hcj, hmod, ?_, ?_⟩
  · intro d s h
    have ht : ContentJs.triggeredFilter d s = some (ContentJs.checkViewsFilter d s) := by
      rw [hcj d s, h]; simp
    refine ⟨ht, hvreason d s h, ?_⟩
    rw [ht]
    rcases hvreason d s h with hr | hr <;> simp [hr]
  · intro d s h
    constructor
    · rw [hmod d s, h]; simp
    · exact hmreason d s h

/-- C4 witness: the views-priority part of the theorem applied to the
concrete tie-break record and settings. -/
theorem orchestrator_first_match_views_priority_witness :
    ContentJs.triggeredFilter dTie sViewsAndKeyword =
      some (ContentJs.checkViewsFilter dTie sViewsAndKeyword) ∧
    (ContentJs.triggeredFilter dTie sViewsAndKeyword).map Decision.reason ≠
      some (some "keyword") ∧
    Modular.applyAllFilters dTie sViewsAndKeyword =
      some (Modular.checkViewsFilter dTie sViewsAndKeyword) ∧
    (Modular.checkViewsFilter dTie sViewsAndKeyword).reason = some "views" :=
  ⟨(orchestrator_first_match_views_priority.2.2.1 dTie sViewsAndKeyword rfl).1,
   (orchestrator_first_match_views_priority.2.2.1 dTie sViewsAndKeyword rfl).2.2,
   (orchestrator_first_match_views_priority.2.2.2 dTie sViewsAndKeyword rfl).1,
   (orchestrator_first_match_views_priority.2.2.2 dTie sViewsAndKeyword rfl).2⟩

/-! ### Claim C3 -/

/-- C3: the per-run statistics object is initialized with counter keys
`views`, `keywords`, `duration`, `age`, `total`, but the loop increments
`currentStats[reason]` with reason strings `keyword` and `no-views` that are
not among those keys: filtering one video by keyword leaves the `keywords`
counter at 0 and creates a fresh key `keyword` holding `undefined + 1 = NaN`
(and likewise reason `no-views` creates a NaN `no-views` key while `views`
stays 0).  Only `total` counts correctly.  The same mismatch is present in
the filter-engine module's `runFilters`.  This contradicts the claim's (and
the spec's) delta shape `{views, duration, age, keyword, total}` of
non-negative integers with per-reason counts. -/
theorem delta_keyword_key_is_nan :
    statGet (ContentJs.runAllFilters sKeywordOnly [cKeyword]).delta "keyword" = some .nan ∧
    statGet (ContentJs.runAllFilters sKeywordOnly [cKeyword]).delta "keywords" = some (.num 0) ∧
    statGet (ContentJs.runAllFilters sKeywordOnly [cKeyword]).delta "total" = some (.num 1) ∧
    statGet (ContentJs.runAllFilters sViews10000 [cNoViews]).delta "no-views" = some .nan ∧
    statGet (ContentJs.runAllFilters sViews10000 [cNoViews]).delta "views" = some (.num 0) ∧
    statGet (Engine.runFilters sKeywordOnly [cKeyword]).delta "keyword" = some .nan ∧
    statGet (Engine.runFilters sKeywordOnly [cKeyword]).delta "keywords" = some (.num 0) := by
  refine ⟨rfl, rfl, ?_, rfl, rfl, rfl, rfl⟩
  have h : statGet (ContentJs.runAllFilters sKeywordOnly [cKeyword]).delta "total"
      = some (.num (0 + 1)) := rfl
  rw [h]
  norm_num

/-! ### Claim C8 -/

/-- C8: the three quantity parsers are total over arbitrary string, `null`
or `undefined` input: every call returns a number (`ok`) and never reaches
the throwing string-method access (`error`) — the falsy guard at the top of
each parser is what rules the `TypeError` out. -/
theorem parsers_total_never_throw :
    ∀ t : JStr, (∃ a, parseViewCount t = .ok a) ∧ (∃ b, parseDuration t = .ok b) ∧
      (∃ c, parseVideoAge t = .ok c) := by
  intro t
  cases t with
  | jnull => exact ⟨⟨.num 0, rfl⟩, ⟨.num 0, rfl⟩, ⟨.num 0, rfl⟩⟩
  | jundef => exact ⟨⟨.num 0, rfl⟩, ⟨.num 0, rfl⟩, ⟨.num 0, rfl⟩⟩
  | jstr s =>
    by_cases h : s = ""
    · subst h; exact ⟨⟨.num 0, rfl⟩, ⟨.num 0, rfl⟩, ⟨.num 0, rfl⟩⟩
    · refine ⟨⟨parseViewCountStr s, ?_⟩, ⟨parseDurationStr s, ?_⟩,
        ⟨parseVideoAgeStr s, ?_⟩⟩
      · simp [parseViewCount, JStr.falsy, h, JStr.asStr, Except.map]
      · simp [parseDuration, JStr.falsy, h, JStr.asStr, Except.map]
      · simp [parseVideoAge, JStr.falsy, h, JStr.asStr, Except.map]

/-! ### Claim C9 -/

/-- C9: each filtered item appends exactly one `(title, details)` history
entry (third conjunct, on the scan step); the stored log is capped at the
100 most recent entries with the oldest evicted first: from a log of length
at most 100, an append keeps the length at most 100, the newest entry is
always last, an append from below the cap keeps everything, and an append
at the cap drops exactly the first (oldest) element.  The content.js
`storeFilteredVideo` and the settings-manager `addFilteredVideo` are the
same function. -/
theorem history_append_cap :
    (∀ (videos : List FilteredEntry) (title reasonText timestamp : String),
      videos.length ≤ 100 →
      (SettingsManager.addFilteredVideo videos title reasonText timestamp).length ≤ 100 ∧
      (SettingsManager.addFilteredVideo videos title reasonText timestamp).getLast?
        = some ⟨title, reasonText, timestamp⟩ ∧
      (videos.length < 100 →
        SettingsManager.addFilteredVideo videos title reasonText timestamp
          = videos ++ [⟨title, reasonText, timestamp⟩]) ∧
      (videos.length = 100 →
        SettingsManager.addFilteredVideo videos title reasonText timestamp
          = videos.tail ++ [⟨title, reasonText, timestamp⟩])) ∧
    ContentJs.storeFilteredVideo = SettingsManager.addFilteredVideo ∧
    (∀ (settings : Settings) (acc : ScanResult) (c : Container) (dec : Decision),
      c.dataFiltered = false →
      ContentJs.triggeredFilter c.data settings = some dec →
      (ContentJs.stepContainer settings acc c).history
        = acc.history ++ [(titleOrUnknown c.data.title, dec.details)]) := by
  refine ⟨?_, rfl, ?_⟩
  · intro videos title r ts hlen
    unfold SettingsManager.addFilteredVideo
    by_cases hl : 100 < (videos ++ [(⟨title, r, ts⟩ : FilteredEntry)]).length
    · have hv : videos.length = 100 := by
        simp only [List.length_append, List.length_cons, List.length_nil] at hl
        omega
      have hne : videos ≠ [] := by
        intro e; rw [e] at hv; simp at hv
      obtain ⟨a, vt, rfl⟩ := List.exists_cons_of_ne_nil hne
      rw [if_pos hl]
      refine ⟨?_, ?_, ?_, ?_⟩
      · simp at hv ⊢; omega
      · simp [List.getLast?_concat]
      · intro hlt; omega
      · intro _; simp
    · rw [if_neg hl]
      have hv : videos.length < 100 := by
        simp only [List.length_append, List.length_cons, List.length_nil] at hl
        omega
      refine ⟨?_, ?_, ?_, ?_⟩
      · simp; omega
      · simp [List.getLast?_concat]
      · intro _; rfl
      · intro he; omega
  · intro settings acc c dec hcf htrig
    unfold ContentJs.stepContainer
    simp only [hcf, Bool.false_eq_true, if_false, htrig]

/-- C9 witness: the theorem applied to the empty log and to the concrete
scan step on the keyword fixture. -/
theorem history_append_cap_witness :
    (SettingsManager.addFilteredVideo [] "t" "r" "2025-01-01T00:00:00.000Z").length ≤ 100 ∧
    (SettingsManager.addFilteredVideo [] "t" "r" "2025-01-01T00:00:00.000Z").getLast?
      = some ⟨"t", "r", "2025-01-01T00:00:00.000Z"⟩ ∧
    (ContentJs.stepContainer sKeywordOnly emptyScan cKeyword).history
      = emptyScan.history ++
        [(titleOrUnknown cKeyword.data.title,
          some "Banned keyword: \x22spoiler\x22")] :=
  ⟨(history_append_cap.1 [] "t" "r" "2025-01-01T00:00:00.000Z" (by decide)).1,
   (history_append_cap.1 [] "t" "r" "2025-01-01T00:00:00.000Z" (by decide)).2.1,
   history_append_cap.2.2 sKeywordOnly emptyScan cKeyword
     { shouldFilter := true, reason := some "keyword",
       details := some "Banned keyword: \x22spoiler\x22" } rfl rfl⟩

/-! ### Helper lemmas: field blocks of `validateAndSanitizeSettings` -/

namespace SettingsManager

theorem boolField_shape (inp : JVal) (b0 : Bool) :
    ∃ b, boolField inp (.atom (.vbool b0)) = .atom (.vbool b) := by
  cases inp with
  | atom a => cases a <;> first | exact ⟨b0, rfl⟩ | (rename_i b; exact ⟨b, rfl⟩)
  | varr l => exact ⟨b0, rfl⟩

theorem boolField_default (inp dflt : JVal) (h : ∀ b, inp ≠ .atom (.vbool b)) :
    boolField inp dflt = dflt := by
  cases inp with
  | atom a => cases a <;> first | rfl | (rename_i b; exact absurd rfl (h b))
  | varr l => rfl

theorem nonnegNumField_int (inp : JVal) (n0 : ℕ) (h : inp ≠ .atom (.vnum .posInf)) :
    ∃ n : ℕ, nonnegNumField inp (.atom (.vnum (.num n0))) = .atom (.vnum (.num n)) := by
  cases inp with
  | atom a =>
    cases a with
    | vnum x =>
      cases x with
      | nan => exact ⟨n0, rfl⟩
      | posInf => exact absurd rfl h
      | negInf => exact ⟨n0, rfl⟩
      | num q =>
        by_cases hq : (0 : ℚ) ≤ q
        · refine ⟨(⌊q⌋).toNat, ?_⟩
          have hge : JSNum.geQ (.num q) 0 = true := by simp [JSNum.geQ, hq]
          simp only [nonnegNumField, hge, if_true, jsFloorNum]
          have : ((⌊q⌋).toNat : ℚ) = (⌊q⌋ : ℚ) := by
            have h0 : (0 : ℤ) ≤ ⌊q⌋ := Int.floor_nonneg.mpr hq
            exact_mod_cast congrArg (fun z : ℤ => (z : ℚ)) (Int.toNat_of_nonneg h0)
          rw [this]
        · refine ⟨n0, ?_⟩
          have hge : JSNum.geQ (.num q) 0 = false := by simp [JSNum.geQ]; linarith
          simp only [nonnegNumField, hge, Bool.false_eq_true, if_false]
    | _ => exact ⟨n0, rfl⟩
  | varr l => exact ⟨n0, rfl⟩

theorem nonnegNumField_default (inp dflt : JVal)
    (h : ¬ ∃ x, inp = .atom (.vnum x) ∧ x.geQ 0 = true) :
    nonnegNumField inp dflt = dflt := by
  cases inp with
  | atom a =>
    cases a with
    | vnum x =>
      have hx : x.geQ 0 = false := by
        cases hg : x.geQ 0
        · rfl
        · exact absurd ⟨x, rfl, hg⟩ h
      simp [nonnegNumField, hx]
    | _ => rfl
  | varr l => rfl

theorem maxAgeField_int (inp : JVal) :
    ∃ n : ℕ, n ≤ 20 ∧ maxAgeField inp (.atom (.vnum (.num 5))) = .atom (.vnum (.num n)) := by
  cases inp with
  | atom a =>
    cases a with
    | vnum x =>
      cases x with
      | nan => exact ⟨5, by norm_num, rfl⟩
      | posInf => exact ⟨5, by norm_num, rfl⟩
      | negInf => exact ⟨5, by norm_num, rfl⟩
      | num q =>
        by_cases hq : (0 : ℚ) ≤ q ∧ q ≤ 20
        · refine ⟨(⌊q⌋).toNat, ?_, ?_⟩
          · have h1 : ⌊q⌋ ≤ 20 := by
              have := Int.floor_le_floor hq.2
              simpa using this
            omega
          · have hge : (JSNum.geQ (.num q) 0 && JSNum.leQ (.num q) 20) = true := by
              simp [JSNum.geQ, JSNum.leQ, hq.1, hq.2]
            simp only [maxAgeField, hge, if_true, jsFloorNum]
            have h0 : (0 : ℤ) ≤ ⌊q⌋ := Int.floor_nonneg.mpr hq.1
            have : ((⌊q⌋).toNat : ℚ) = (⌊q⌋ : ℚ) := by
              exact_mod_cast congrArg (fun z : ℤ => (z : ℚ)) (Int.toNat_of_nonneg h0)
            rw [this]
        · refine ⟨5, by norm_num, ?_⟩
          have hge : (JSNum.geQ (.num q) 0 && JSNum.leQ (.num q) 20) = false := by
            rcases not_and_or.mp hq with h1 | h1
            · have hg : JSNum.geQ (.num q) 0 = false := by
                simp only [JSNum.geQ, decide_eq_false_iff_not]; exact h1
              simp [hg]
            · have hl : JSNum.leQ (.num q) 20 = false := by
                simp only [JSNum.leQ, decide_eq_false_iff_not]; exact h1
              simp [hl]
          simp only [maxAgeField, hge, Bool.false_eq_true, if_false]
          norm_num
    | _ => exact ⟨5, by norm_num, rfl⟩
  | varr l => exact ⟨5, by norm_num, rfl⟩

theorem maxAgeField_default (inp dflt : JVal)
    (h : ¬ ∃ x, inp = .atom (.vnum x) ∧ (x.geQ 0 && x.leQ 20) = true) :
    maxAgeField inp dflt = dflt := by
  cases inp with
  | atom a =>
    cases a with
    | vnum x =>
      have hx : (x.geQ 0 && x.leQ 20) = false := by
        cases hg : (x.geQ 0 && x.leQ 20)
        · rfl
        · exact absurd ⟨x, rfl, hg⟩ h
      simp [maxAgeField, hx]
    | _ => rfl
  | varr l => rfl

theorem keywordsField_elems (l : List JAtom) :
    ∀ a ∈ (l.filter keywordKeep).map keywordMap,
      ∃ orig : List Char, trimL orig ≠ [] ∧
        a = .vstr (jsToLower (String.mk (trimL orig))) ∧ a ≠ .vstr "" := by
  intro a ha
  obtain ⟨b, hb, rfl⟩ := List.mem_map.mp ha
  have hkeep : keywordKeep b = true := List.of_mem_filter hb
  cases b with
  | vstr s =>
    have hne : trimL s.data ≠ [] := by simpa [keywordKeep] using hkeep
    refine ⟨s.data, hne, rfl, ?_⟩
    simp only [keywordMap, jsToLower, ne_eq, JAtom.vstr.injEq]
    intro hcontra
    have := congrArg String.data hcontra
    simp at this
    exact hne this
  | undef => simp [keywordKeep] at hkeep
  | vnull => simp [keywordKeep] at hkeep
  | vbool b => simp [keywordKeep] at hkeep
  | vnum x => simp [keywordKeep] at hkeep
  | vobj => simp [keywordKeep] at hkeep

theorem keywordsField_default (inp dflt : JVal) (h : ∀ l, inp ≠ .varr l) :
    keywordsField inp dflt = dflt := by
  cases inp with
  | atom a => rfl
  | varr l => exact absurd rfl (h l)

/-- C10 (amended): for every input object in which the legacy keys
`maxAgeYears` and `keywords` do not override the modern keys (legacy key
falsy or modern key truthy) and no numeric field holds `+Infinity`,
`validateAndSanitizeSettings` returns a settings object whose four enable
flags are booleans, whose `minViews`, `minDuration`, `maxDuration` and
`maxAge` are non-negative integers with `maxAge ≤ 20`, and whose
`bannedKeywords` is an array of non-empty, trimmed, lower-cased strings
(each element the lower-casing of the trim of some original); and every
field of the wrong type or out of range is replaced by its default value.
Without those provisos the claim fails: the legacy branch copies the raw
value through unvalidated. -/
theorem validate_shape (s : RawSettings)
    (hLegacyAge : s.maxAgeYears.truthy = false ∨ s.maxAge.truthy = true)
    (hLegacyKw : s.keywords.truthy = false ∨ s.bannedKeywords.truthy = true)
    (hIV : s.minViews ≠ .atom (.vnum .posInf))
    (hID : s.minDuration ≠ .atom (.vnum .posInf))
    (hMD : s.maxDuration ≠ .atom (.vnum .posInf)) :
    (∃ b, (validateAndSanitizeSettings s).viewsFilterEnabled = .atom (.vbool b)) ∧
    (∃ b, (validateAndSanitizeSettings s).durationFilterEnabled = .atom (.vbool b)) ∧
    (∃ b, (validateAndSanitizeSettings s).keywordFilterEnabled = .atom (.vbool b)) ∧
    (∃ b, (validateAndSanitizeSettings s).ageFilterEnabled = .atom (.vbool b)) ∧
    (∃ n : ℕ, (validateAndSanitizeSettings s).minViews = .atom (.vnum (.num n))) ∧
    (∃ n : ℕ, (validateAndSanitizeSettings s).minDuration = .atom (.vnum (.num n))) ∧
    (∃ n : ℕ, (validateAndSanitizeSettings s).maxDuration = .atom (.vnum (.num n))) ∧
    (∃ n : ℕ, n ≤ 20 ∧ (validateAndSanitizeSettings s).maxAge = .atom (.vnum (.num n))) ∧
    (∃ l : List JAtom, (validateAndSanitizeSettings s).bannedKeywords = .varr l ∧
      ∀ a ∈ l, ∃ orig : List Char, trimL orig ≠ [] ∧
        a = .vstr (jsToLower (String.mk (trimL orig))) ∧ a ≠ .vstr "") ∧
    ((∀ b, s.viewsFilterEnabled ≠ .atom (.vbool b)) →
      (validateAndSanitizeSettings s).viewsFilterEnabled = .atom (.vbool true)) ∧
    ((∀ b, s.durationFilterEnabled ≠ .atom (.vbool b)) →
      (validateAndSanitizeSettings s).durationFilterEnabled = .atom (.vbool true)) ∧
    ((∀ b, s.keywordFilterEnabled ≠ .atom (.vbool b)) →
      (validateAndSanitizeSettings s).keywordFilterEnabled = .atom (.vbool true)) ∧
    ((∀ b, s.ageFilterEnabled ≠ .atom (.vbool b)) →
      (validateAndSanitizeSettings s).ageFilterEnabled = .atom (.vbool true)) ∧
    ((¬ ∃ x, s.minViews = .atom (.vnum x) ∧ x.geQ 0 = true) →
      (validateAndSanitizeSettings s).minViews = .atom (.vnum (.num 10000))) ∧
    ((¬ ∃ x, s.minDuration = .atom (.vnum x) ∧ x.geQ 0 = true) →
      (validateAndSanitizeSettings s).minDuration = .atom (.vnum (.num 60))) ∧
    ((¬ ∃ x, s.maxDuration = .atom (.vnum x) ∧ x.geQ 0 = true) →
      (validateAndSanitizeSettings s).maxDuration = .atom (.vnum (.num 3600))) ∧
    ((¬ ∃ x, s.maxAge = .atom (.vnum x) ∧ (x.geQ 0 && x.leQ 20) = true) →
      (validateAndSanitizeSettings s).maxAge = .atom (.vnum (.num 5))) ∧
    ((∀ l, s.bannedKeywords ≠ .varr l) →
      (validateAndSanitizeSettings s).bannedKeywords =
        .varr [.vstr "spoiler", .vstr "clickbait", .vstr "sponsor"]) := by
  have hNoAge : ¬(s.maxAgeYears.truthy = true ∧ s.maxAge.truthy = false) := by
    rcases hLegacyAge with h | h <;> simp [h]
  have hNoKw : ¬(s.keywords.truthy = true ∧ s.bannedKeywords.truthy = false) := by
    rcases hLegacyKw with h | h <;> simp [h]
  have hV : validateAndSanitizeSettings s =
      { viewsFilterEnabled := boolField s.viewsFilterEnabled (.atom (.vbool true))
        durationFilterEnabled := boolField s.durationFilterEnabled (.atom (.vbool true))
        keywordFilterEnabled := boolField s.keywordFilterEnabled (.atom (.vbool true))
        ageFilterEnabled := boolField s.ageFilterEnabled (.atom (.vbool true))
        minViews := nonnegNumField s.minViews (.atom (.vnum (.num 10000)))
        minDuration := nonnegNumField s.minDuration (.atom (.vnum (.num 60)))
        maxDuration := nonnegNumField s.maxDuration (.atom (.vnum (.num 3600)))
        maxAge := maxAgeField s.maxAge (.atom (.vnum (.num 5)))
        bannedKeywords := keywordsField s.bannedKeywords
          (.varr [.vstr "spoiler", .vstr "clickbait", .vstr "sponsor"])
        maxAgeYears := .atom .undef
        keywords := .atom .undef } := by
    unfold validateAndSanitizeSettings
    rw [if_neg hNoKw, if_neg hNoAge]
  refine ⟨?_, ?_, ?_, ?_, ?_, ?_, ?_, ?_, ?_, ?_, ?_, ?_, ?_, ?_, ?_, ?_, ?_, ?_⟩
  · rw [hV]; exact boolField_shape s.viewsFilterEnabled true
  · rw [hV]; exact boolField_shape s.durationFilterEnabled true
  · rw [hV]; exact boolField_shape s.keywordFilterEnabled true
  · rw [hV]; exact boolField_shape s.ageFilterEnabled true
  · rw [hV]; exact nonnegNumField_int s.minViews 10000 hIV
  · rw [hV]; exact nonnegNumField_int s.minDuration 60 hID
  · rw [hV]; exact nonnegNumField_int s.maxDuration 3600 hMD
  · rw [hV]; exact maxAgeField_int s.maxAge
  · rw [hV]
    cases hbk : s.bannedKeywords with
    | atom a =>
      refine ⟨[.vstr "spoiler", .vstr "clickbait", .vstr "sponsor"], rfl, ?_⟩
      intro x hx
      rcases List.mem_cons.mp hx with rfl | hx
      · exact ⟨"spoiler".data, by decide, rfl, by decide⟩
      rcases List.mem_cons.mp hx with rfl | hx
      · exact ⟨"clickbait".data, by decide, rfl, by decide⟩
      rcases List.mem_cons.mp hx with rfl | hx
      · exact ⟨"sponsor".data, by decide, rfl, by decide⟩
      exact absurd hx (List.not_mem_nil x)
    | varr l =>
      exact ⟨(l.filter keywordKeep).map keywordMap, rfl, keywordsField_elems l⟩
  · intro h; rw [hV]; exact boolField_default _ _ h
  · intro h; rw [hV]; exact boolField_default _ _ h
  · intro h; rw [hV]; exact boolField_default _ _ h
  · intro h; rw [hV]; exact boolField_default _ _ h
  · intro h; rw [hV]; exact nonnegNumField_default _ _ h
  · intro h; rw [hV]; exact nonnegNumField_default _ _ h
  · intro h; rw [hV]; exact nonnegNumField_default _ _ h
  · intro h; rw [hV]; exact maxAgeField_default _ _ h
  · intro h; rw [hV]; exact keywordsField_default _ _ h

end SettingsManager

/-! ### Claim C10: counterexample and witness -/

/-- C10, counterexample: the input `{maxAgeYears: 50}` (all other keys
absent) flows through the legacy-compatibility branch, which assigns the
raw value to `maxAge` with no validation: the returned `maxAge` is 50,
violating the claimed `maxAge ≤ 20` bound. -/
theorem legacy_maxAgeYears_bypasses_validation :
    (SettingsManager.validateAndSanitizeSettings legacyInput).maxAge
      = .atom (.vnum (.num 50)) ∧
    ¬ ∃ n : ℕ, n ≤ 20 ∧
      (SettingsManager.validateAndSanitizeSettings legacyInput).maxAge
        = .atom (.vnum (.num n)) := by
  have h50 : (SettingsManager.validateAndSanitizeSettings legacyInput).maxAge
      = .atom (.vnum (.num 50)) := rfl
  refine ⟨h50, ?_⟩
  rintro ⟨n, hn, h⟩
  rw [h50] at h
  simp only [JVal.atom.injEq, JAtom.vnum.injEq, JSNum.num.injEq] at h
  have : n = 50 := by exact_mod_cast h.symm
  omega

/-- C10 witness: the theorem applied to the concrete legacy-free fixture
`rawSample`. -/
theorem validate_shape_witness :
    (∃ b, (SettingsManager.validateAndSanitizeSettings rawSample).viewsFilterEnabled
      = .atom (.vbool b)) ∧
    (∃ n : ℕ, n ≤ 20 ∧ (SettingsManager.validateAndSanitizeSettings rawSample).maxAge
      = .atom (.vnum (.num n))) ∧
    (∃ n : ℕ, (SettingsManager.validateAndSanitizeSettings rawSample).minViews
      = .atom (.vnum (.num n))) :=
  ⟨(SettingsManager.validate_shape rawSample (Or.inl rfl) (Or.inl rfl)
      (by decide) (by decide) (by decide)).1,
   (SettingsManager.validate_shape rawSample (Or.inl rfl) (Or.inl rfl)
      (by decide) (by decide) (by decide)).2.2.2.2.2.2.2.1,
   (SettingsManager.validate_shape rawSample (Or.inl rfl) (Or.inl rfl)
      (by decide) (by decide) (by decide)).2.2.2.2.1⟩

/-! ### Helper lemmas: scan-loop behaviour (claim C1) -/

/-- One scan step on a tagged container: counted, otherwise untouched. -/
theorem cj_step_tagged (s : Settings) (acc : ScanResult) (c : Container)
    (h : c.dataFiltered = true) :
    ContentJs.stepContainer s acc c =
      { acc with containers := acc.containers ++ [c],
                 alreadyFilteredCount := acc.alreadyFilteredCount + 1 } := by
  unfold ContentJs.stepContainer
  simp [h]

theorem cj_step_some (s : Settings) (acc : ScanResult) (c : Container) (dec : Decision)
    (h : c.dataFiltered = false)
    (ht : ContentJs.triggeredFilter c.data s = some dec) :
    ContentJs.stepContainer s acc c =
      { containers := acc.containers ++
          [{ c with hidden := true, dataFiltered := true, filterReason := dec.reason }],
        delta := statIncr (statIncr acc.delta (dec.reason.getD "undefined")) "total",
        history := acc.history ++ [(titleOrUnknown c.data.title, dec.details)],
        processedCount := acc.processedCount + 1,
        alreadyFilteredCount := acc.alreadyFilteredCount } := by
  unfold ContentJs.stepContainer
  simp only [h, Bool.false_eq_true, if_false, ht]

theorem cj_step_none (s : Settings) (acc : ScanResult) (c : Container)
    (h : c.dataFiltered = false)
    (ht : ContentJs.triggeredFilter c.data s = none) :
    ContentJs.stepContainer s acc c =
      { acc with containers := acc.containers ++ [c],
                 processedCount := acc.processedCount + 1 } := by
  unfold ContentJs.stepContainer
  simp only [h, Bool.false_eq_true, if_false, ht]

theorem cj_scan_mem_inv (s : Settings) :
    ∀ (cs : List Container) (acc : ScanResult),
      ∀ x ∈ (ContentJs.scanContainers s acc cs).containers,
        x ∈ acc.containers ∨ x.dataFiltered = true ∨
          ContentJs.triggeredFilter x.data s = none := by
  intro cs
  induction cs with
  | nil => intro acc x hx; exact Or.inl hx
  | cons c cs ih =>
    intro acc x hx
    rcases ih (ContentJs.stepContainer s acc c) x hx with hmem | hinv
    · by_cases hcf : c.dataFiltered = true
      · rw [cj_step_tagged s acc c hcf] at hmem
        rcases List.mem_append.mp hmem with h1 | h1
        · exact Or.inl h1
        · have hx1 := List.mem_singleton.mp h1
          subst hx1
          exact Or.inr (Or.inl hcf)
      · have hcf' : c.dataFiltered = false := by simpa using hcf
        cases htr : ContentJs.triggeredFilter c.data s with
        | some dec =>
          rw [cj_step_some s acc c dec hcf' htr] at hmem
          rcases List.mem_append.mp hmem with h1 | h1
          · exact Or.inl h1
          · have hx1 := List.mem_singleton.mp h1
            subst hx1
            exact Or.inr (Or.inl rfl)
        | none =>
          rw [cj_step_none s acc c hcf' htr] at hmem
          rcases List.mem_append.mp hmem with h1 | h1
          · exact Or.inl h1
          · have hx1 := List.mem_singleton.mp h1
            subst hx1
            exact Or.inr (Or.inr htr)
    · exact Or.inr hinv

theorem cj_scan_no_trigger (s : Settings) :
    ∀ (cs : List Container) (acc : ScanResult),
      (∀ x ∈ cs, x.dataFiltered = true ∨ ContentJs.triggeredFilter x.data s = none) →
      (ContentJs.scanContainers s acc cs).containers = acc.containers ++ cs ∧
      (ContentJs.scanContainers s acc cs).delta = acc.delta ∧
      (ContentJs.scanContainers s acc cs).history = acc.history := by
  intro cs
  induction cs with
  | nil => intro acc _; exact ⟨by simp [ContentJs.scanContainers], rfl, rfl⟩
  | cons c cs ih =>
    intro acc h
    have hc := h c (by simp)
    have hrest : ∀ x ∈ cs, x.dataFiltered = true ∨
        ContentJs.triggeredFilter x.data s = none := fun x hx => h x (by simp [hx])
    by_cases hcf : c.dataFiltered = true
    · have hstep := cj_step_tagged s acc c hcf
      have hih := ih (ContentJs.stepContainer s acc c) hrest
      rw [hstep] at hih
      simp only [ContentJs.scanContainers]
      rw [hstep]
      refine ⟨?_, hih.2.1, hih.2.2⟩
      rw [hih.1]
      simp
    · have hcf' : c.dataFiltered = false := by simpa using hcf
      have htr : ContentJs.triggeredFilter c.data s = none := by
        rcases hc with h1 | h1
        · exact absurd h1 hcf
        · exact h1
      have hstep := cj_step_none s acc c hcf' htr
      have hih := ih (ContentJs.stepContainer s acc c) hrest
      rw [hstep] at hih
      simp only [ContentJs.scanContainers]
      rw [hstep]
      refine ⟨?_, hih.2.1, hih.2.2⟩
      rw [hih.1]
      simp

theorem eng_step_tagged (s : Settings) (acc : ScanResult) (c : Container)
    (h : c.dataFiltered = true) :
    Engine.stepContainer s acc c =
      { acc with containers := acc.containers ++ [c],
                 alreadyFilteredCount := acc.alreadyFilteredCount + 1 } := by
  unfold Engine.stepContainer
  simp [h]

theorem eng_step_some (s : Settings) (acc : ScanResult) (c : Container) (dec : Decision)
    (h : c.dataFiltered = false)
    (ht : Modular.applyAllFilters c.data s = some dec) :
    Engine.stepContainer s acc c =
      { containers := acc.containers ++
          [{ c with hidden := true, dataFiltered := true, filterReason := dec.reason }],
        delta := statIncr (statIncr acc.delta (dec.reason.getD "undefined")) "total",
        history := acc.history ++ [(titleOrUnknown c.data.title, dec.details)],
        processedCount := acc.processedCount + 1,
        alreadyFilteredCount := acc.alreadyFilteredCount } := by
  unfold Engine.stepContainer
  simp only [h, Bool.false_eq_true, if_false, ht]

theorem eng_step_none (s : Settings) (acc : ScanResult) (c : Container)
    (h : c.dataFiltered = false)
    (ht : Modular.applyAllFilters c.data s = none) :
    Engine.stepContainer s acc c =
      { acc with containers := acc.containers ++ [c],
                 processedCount := acc.processedCount + 1 } := by
  unfold Engine.stepContainer
  simp only [h, Bool.false_eq_true, if_false, ht]

theorem eng_scan_mem_inv (s : Settings) :
    ∀ (cs : List Container) (acc : ScanResult),
      ∀ x ∈ (Engine.scanContainers s acc cs).containers,
        x ∈ acc.containers ∨ x.dataFiltered = true ∨
          Modular.applyAllFilters x.data s = none := by
  intro cs
  induction cs with
  | nil => intro acc x hx; exact Or.inl hx
  | cons c cs ih =>
    intro acc x hx
    rcases ih (Engine.stepContainer s acc c) x hx with hmem | hinv
    · by_cases hcf : c.dataFiltered = true
      · rw [eng_step_tagged s acc c hcf] at hmem
        rcases List.mem_append.mp hmem with h1 | h1
        · exact Or.inl h1
        · have hx1 := List.mem_singleton.mp h1
          subst hx1
          exact Or.inr (Or.inl hcf)
      · have hcf' : c.dataFiltered = false := by simpa using hcf
        cases htr : Modular.applyAllFilters c.data s with
        | some dec =>
          rw [eng_step_some s acc c dec hcf' htr] at hmem
          rcases List.mem_append.mp hmem with h1 | h1
          · exact Or.inl h1
          · have hx1 := List.mem_singleton.mp h1
            subst hx1
            exact Or.inr (Or.inl rfl)
        | none =>
          rw [eng_step_none s acc c hcf' htr] at hmem
          rcases List.mem_append.mp hmem with h1 | h1
          · exact Or.inl h1
          · have hx1 := List.mem_singleton.mp h1
            subst hx1
            exact Or.inr (Or.inr htr)
    · exact Or.inr hinv

theorem eng_scan_no_trigger (s : Settings) :
    ∀ (cs : List Container) (acc : ScanResult),
      (∀ x ∈ cs, x.dataFiltered = true ∨ Modular.applyAllFilters x.data s = none) →
      (Engine.scanContainers s acc cs).containers = acc.containers ++ cs ∧
      (Engine.scanContainers s acc cs).delta = acc.delta ∧
      (Engine.scanContainers s acc cs).history = acc.history := by
  intro cs
  induction cs with
  | nil => intro acc _; exact ⟨by simp [Engine.scanContainers], rfl, rfl⟩
  | cons c cs ih =>
    intro acc h
    have hc := h c (by simp)
    have hrest : ∀ x ∈ cs, x.dataFiltered = true ∨
        Modular.applyAllFilters x.data s = none := fun x hx => h x (by simp [hx])
    by_cases hcf : c.dataFiltered = true
    · have hstep := eng_step_tagged s acc c hcf
      have hih := ih (Engine.stepContainer s acc c) hrest
      rw [hstep] at hih
      simp only [Engine.scanContainers]
      rw [hstep]
      refine ⟨?_, hih.2.1, hih.2.2⟩
      rw [hih.1]
      simp
    · have hcf' : c.dataFiltered = false := by simpa using hcf
      have htr : Modular.applyAllFilters c.data s = none := by
        rcases hc with h1 | h1
        · exact absurd h1 hcf
        · exact h1
      have hstep := eng_step_none s acc c hcf' htr
      have hih := ih (Engine.stepContainer s acc c) hrest
      rw [hstep] at hih
      simp only [Engine.scanContainers]
      rw [hstep]
      refine ⟨?_, hih.2.1, hih.2.2⟩
      rw [hih.1]
      simp

/-- C1: a container already carrying the `data-filtered` decision tag is
skipped entirely by one scan step — the step leaves the container, the delta
and the history untouched and only counts it as already-filtered (first
conjunct, for both loop implementations); consequently a second scan over
the unchanged output of a first scan with unchanged settings changes no
container (and hence no tag), produces the all-zero delta `initStats` and
emits no history writes. -/
theorem scan_skips_tagged_and_rescan_noop :
    (∀ (s : Settings) (acc : ScanResult) (c : Container), c.dataFiltered = true →
      ContentJs.stepContainer s acc c =
        { acc with containers := acc.containers ++ [c],
                   alreadyFilteredCount := acc.alreadyFilteredCount + 1 } ∧
      Engine.stepContainer s acc c =
        { acc with containers := acc.containers ++ [c],
                   alreadyFilteredCount := acc.alreadyFilteredCount + 1 }) ∧
    (∀ (s : Settings) (cards : List Container),
      (ContentJs.runAllFilters s (ContentJs.runAllFilters s cards).containers).containers
        = (ContentJs.runAllFilters s cards).containers ∧
      (ContentJs.runAllFilters s (ContentJs.runAllFilters s cards).containers).delta
        = initStats ∧
      (ContentJs.runAllFilters s (ContentJs.runAllFilters s cards).containers).history
        = []) ∧
    (∀ (s : Settings) (cards : List Container),
      (Engine.runFilters s (Engine.runFilters s cards).containers).containers
        = (Engine.runFilters s cards).containers ∧
      (Engine.runFilters s (Engine.runFilters s cards).containers).delta = initStats ∧
      (Engine.runFilters s (Engine.runFilters s cards).containers).history = []) := by
  refine ⟨fun s acc c h => ⟨cj_step_tagged s acc c h, eng_step_tagged s acc c h⟩, ?_, ?_⟩
  · intro s cards
    by_cases hdis : (s.viewsFilterEnabled = false ∧ s.durationFilterEnabled = false ∧
        s.keywordsFilterEnabled = false ∧ s.ageFilterEnabled = false)
    · simp [ContentJs.runAllFilters, hdis, emptyScan]
    · have hrun : ∀ l, ContentJs.runAllFilters s l = ContentJs.scanContainers s emptyScan l := by
        intro l
        unfold ContentJs.runAllFilters
        rw [if_neg hdis]
      have hinv : ∀ x ∈ (ContentJs.runAllFilters s cards).containers,
          x.dataFiltered = true ∨ ContentJs.triggeredFilter x.data s = none := by
        intro x hx
        rw [hrun cards] at hx
        rcases cj_scan_mem_inv s cards emptyScan x hx with h | h
        · exact absurd h (by simp [emptyScan])
        · exact h
      have h2 := cj_scan_no_trigger s (ContentJs.runAllFilters s cards).containers
        emptyScan hinv
      rw [hrun (ContentJs.runAllFilters s cards).containers]
      refine ⟨?_, h2.2.1, h2.2.2⟩
      rw [h2.1]
      simp [emptyScan]
  · intro s cards
    by_cases hdis : (s.viewsFilterEnabled = false ∧ s.durationFilterEnabled = false ∧
        s.keywordFilterEnabled = false ∧ s.ageFilterEnabled = false)
    · simp [Engine.runFilters, hdis, emptyScan]
    · have hrun : ∀ l, Engine.runFilters s l = Engine.scanContainers s emptyScan l := by
        intro l
        unfold Engine.runFilters
        rw [if_neg hdis]
      have hinv : ∀ x ∈ (Engine.runFilters s cards).containers,
          x.dataFiltered = true ∨ Modular.applyAllFilters x.data s = none := by
        intro x hx
        rw [hrun cards] at hx
        rcases eng_scan_mem_inv s cards emptyScan x hx with h | h
        · exact absurd h (by simp [emptyScan])
        · exact h
      have h2 := eng_scan_no_trigger s (Engine.runFilters s cards).containers
        emptyScan hinv
      rw [hrun (Engine.runFilters s cards).containers]
      refine ⟨?_, h2.2.1, h2.2.2⟩
      rw [h2.1]
      simp [emptyScan]

/-- C1 witness: the step equality applied to a concrete tagged container,
and the second-scan delta at a concrete card list. -/
theorem scan_skips_tagged_and_rescan_noop_witness :
    ContentJs.stepContainer sViews10000 emptyScan cTagged =
      { emptyScan with containers := emptyScan.containers ++ [cTagged],
                       alreadyFilteredCount := emptyScan.alreadyFilteredCount + 1 } ∧
    (ContentJs.runAllFilters sViews10000
        (ContentJs.runAllFilters sViews10000 [cNoViews, cTagged]).containers).delta
      = initStats ∧
    (Engine.runFilters sKeywordOnly
        (Engine.runFilters sKeywordOnly [cKeyword]).containers).delta = initStats :=
  ⟨(scan_skips_tagged_and_rescan_noop.1 sViews10000 emptyScan cTagged rfl).1,
   (scan_skips_tagged_and_rescan_noop.2.1 sViews10000 [cNoViews, cTagged]).2.1,
   (scan_skips_tagged_and_rescan_noop.2.2 sKeywordOnly [cKeyword]).2.1⟩

/-! ### Helper lemmas: universal evaluation of parseViewCount (claim C5) -/

theorem toLower_eq_self_of_isDigit {c : Char} (h : c.isDigit = true) : c.toLower = c := by
  unfold Char.toLower
  rw [if_neg]
  intro hcon
  simp [Char.isDigit] at h
  obtain ⟨h1, h2⟩ := h
  obtain ⟨h3, h4⟩ := hcon
  have h2n : c.toNat ≤ 57 := h2
  omega

theorem toLower_ne_v_of_isDigit {c : Char} (h : c.isDigit = true) : c.toLower ≠ 'v' := by
  rw [toLower_eq_self_of_isDigit h]
  intro e
  rw [e] at h
  exact absurd h (by decide)

theorem dropPrefixCI_view_none {c : Char} (cs : List Char) (h : c.toLower ≠ 'v') :
    dropPrefixCI ['v', 'i', 'e', 'w'] (c :: cs) = none := by
  simp [dropPrefixCI, h]

theorem stripViewWord_append_no_v {l : List Char} (tail : List Char)
    (h : ∀ c ∈ l, c.toLower ≠ 'v') :
    stripViewWord (l ++ tail) = l ++ stripViewWord tail := by
  induction l with
  | nil => rfl
  | cons c t ih =>
    rw [List.cons_append]
    simp only [stripViewWord, dropPrefixCI_view_none _ (h c (by simp))]
    rw [ih (fun x hx => h x (by simp [hx]))]
    rfl

theorem stripViewWord_no_v {l : List Char} (h : ∀ c ∈ l, c.toLower ≠ 'v') :
    stripViewWord l = l := by
  have := stripViewWord_append_no_v [] h
  simpa [stripViewWord] using this

theorem dropWhile_eq_nil_of_forall {α} (p : α → Bool) (l : List α)
    (h : ∀ c ∈ l, p c = true) : l.dropWhile p = [] := by
  induction l with
  | nil => rfl
  | cons a t ih =>
    simp only [List.dropWhile_cons, h a (by simp), if_true]
    exact ih (fun c hc => h c (by simp [hc]))

theorem takeWhile_append_all {α} (p : α → Bool) {a : List α} (b : List α)
    (ha : ∀ c ∈ a, p c = true) :
    (a ++ b).takeWhile p = a ++ b.takeWhile p := by
  induction a with
  | nil => rfl
  | cons x t ih =>
    rw [List.cons_append]
    simp only [List.takeWhile_cons, ha x (by simp), if_true]
    rw [ih (fun c hc => ha c (by simp [hc]))]
    rfl

theorem dropWhile_append_all {α} (p : α → Bool) {a : List α} (b : List α)
    (ha : ∀ c ∈ a, p c = true) :
    (a ++ b).dropWhile p = b.dropWhile p := by
  induction a with
  | nil => rfl
  | cons x t ih =>
    rw [List.cons_append]
    simp only [List.dropWhile_cons, ha x (by simp), if_true]
    exact ih (fun c hc => ha c (by simp [hc]))

theorem trimL_append_space {l : List Char} (hne : l ≠ [])
    (h : ∀ c ∈ l, isWS c = false) : trimL (l ++ [' ']) = l := by
  obtain ⟨a, t, rfl⟩ := List.exists_cons_of_ne_nil hne
  unfold trimL
  have h1 : ((a :: t) ++ [' ']).dropWhile isWS = (a :: t) ++ [' '] := by
    rw [List.cons_append, List.dropWhile_cons, h a (by simp)]
    simp
  rw [h1, List.reverse_append]
  have h2 : ([' '].reverse ++ (a :: t).reverse).dropWhile isWS = (a :: t).reverse := by
    simp only [List.reverse_singleton, List.singleton_append, List.dropWhile_cons]
    rw [show isWS ' ' = true from rfl]
    simp only [if_true]
    exact dropWhile_eq_self_of_forall _ _
      (fun c hc => h c (List.mem_reverse.mp hc))
  rw [h2, List.reverse_reverse]

theorem isPrefixOf_Infinity_false {c : Char} (cs : List Char)
    (h : (c.isDigit || c = '.') = true) :
    List.isPrefixOf ['I', 'n', 'f', 'i', 'n', 'i', 't', 'y'] (c :: cs) = false := by
  have hne : ('I' == c) = false := by
    simp only [Bool.or_eq_true, decide_eq_true_eq] at h
    rcases h with h | h
    · simp only [beq_eq_false_iff_ne, ne_eq]
      intro e
      rw [← e] at h
      exact absurd h (by decide)
    · subst h
      decide
  simp [List.isPrefixOf, hne]

theorem jsParseFloat_digits {l : List Char} (hne : l ≠ [])
    (hd : ∀ c ∈ l, c.isDigit = true) : jsParseFloat l = .num (natVal l) := by
  obtain ⟨a, t, rfl⟩ := List.exists_cons_of_ne_nil hne
  have ha := hd a (by simp)
  have hws : (a :: t).dropWhile isWS = a :: t :=
    dropWhile_eq_self_of_forall _ _ (fun c hc => isWS_false_of_isDigit (hd c hc))
  have hplus : a ≠ '+' := by intro e; rw [e] at ha; exact absurd ha (by decide)
  have hminus : a ≠ '-' := by intro e; rw [e] at ha; exact absurd ha (by decide)
  have hpre : List.isPrefixOf ['I', 'n', 'f', 'i', 'n', 'i', 't', 'y'] (a :: t) = false :=
    isPrefixOf_Infinity_false t (by simp [ha])
  have htk : (a :: t).takeWhile Char.isDigit = a :: t :=
    takeWhile_eq_self_of_forall _ _ hd
  have hdr : (a :: t).dropWhile Char.isDigit = [] :=
    dropWhile_eq_nil_of_forall _ _ hd
  unfold jsParseFloat
  simp only [hws, if_neg hplus, if_neg hminus]
  unfold jsParseFloatUnsigned
  simp only [hpre, Bool.false_eq_true, if_false, htk, hdr]
  simp only [List.cons_ne_nil, false_and, if_false]
  have hfrac : fracVal [] = 0 := by
    simp [fracVal, natVal]
  simp [hfrac]

theorem jsParseFloat_digits_dot {ip fp : List Char} (hne : ip ≠ [])
    (hip : ∀ c ∈ ip, c.isDigit = true) (hfp : ∀ c ∈ fp, c.isDigit = true) :
    jsParseFloat (ip ++ '.' :: fp) = .num ((natVal ip : ℚ) + fracVal fp) := by
  obtain ⟨a, t, rfl⟩ := List.exists_cons_of_ne_nil hne
  have ha := hip a (by simp)
  have hall : ∀ c ∈ (a :: t) ++ '.' :: fp, isWS c = false := by
    intro c hc
    rcases List.mem_append.mp hc with h1 | h1
    · exact isWS_false_of_isDigit (hip c h1)
    · rcases List.mem_cons.mp h1 with rfl | h2
      · decide
      · exact isWS_false_of_isDigit (hfp c h2)
  have hws : ((a :: t) ++ '.' :: fp).dropWhile isWS = (a :: t) ++ '.' :: fp :=
    dropWhile_eq_self_of_forall _ _ hall
  have hplus : a ≠ '+' := by intro e; rw [e] at ha; exact absurd ha (by decide)
  have hminus : a ≠ '-' := by intro e; rw [e] at ha; exact absurd ha (by decide)
  have hpre : List.isPrefixOf ['I', 'n', 'f', 'i', 'n', 'i', 't', 'y']
      ((a :: t) ++ '.' :: fp) = false := by
    rw [List.cons_append]
    exact isPrefixOf_Infinity_false _ (by simp [ha])
  have htk : ((a :: t) ++ '.' :: fp).takeWhile Char.isDigit = a :: t := by
    rw [takeWhile_append_all _ _ hip]
    simp [List.takeWhile_cons]
  have hdr : ((a :: t) ++ '.' :: fp).dropWhile Char.isDigit = '.' :: fp := by
    rw [dropWhile_append_all _ _ hip]
    simp [List.dropWhile_cons]
  have htk2 : fp.takeWhile Char.isDigit = fp := takeWhile_eq_self_of_forall _ _ hfp
  have hdr2 : fp.dropWhile Char.isDigit = [] := dropWhile_eq_nil_of_forall _ _ hfp
  unfold jsParseFloat
  simp only [List.cons_append] at hws hpre htk hdr ⊢
  simp only [hws, if_neg hplus, if_neg hminus]
  unfold jsParseFloatUnsigned
  simp only [hpre, Bool.false_eq_true, if_false, htk, hdr, htk2, hdr2]
  simp only [List.cons_ne_nil, false_and, if_false]
  rfl

theorem jsParseFloat_dots {l : List Char} (hne : l ≠ [])
    (hd : ∀ c ∈ l, c = '.') : jsParseFloat l = .nan := by
  obtain ⟨a, t, rfl⟩ := List.exists_cons_of_ne_nil hne
  have ha : a = '.' := hd a (by simp)
  subst ha
  have ht : ∀ c ∈ t, c = '.' := fun c hc => hd c (by simp [hc])
  have hws : ('.' :: t).dropWhile isWS = '.' :: t := by
    rw [List.dropWhile_cons]
    simp only [show isWS '.' = false from by decide, Bool.false_eq_true, if_false]
  have htk : ('.' :: t).takeWhile Char.isDigit = [] := by
    simp [List.takeWhile_cons]
  have hdr : ('.' :: t).dropWhile Char.isDigit = '.' :: t := by
    simp [List.dropWhile_cons]
  have htk2 : t.takeWhile Char.isDigit = [] := by
    cases t with
    | nil => rfl
    | cons b bs =>
      have hb : b = '.' := ht b (by simp)
      subst hb
      simp [List.takeWhile_cons]
  unfold jsParseFloat
  simp only [hws]
  rw [if_neg (by decide : ¬('.' = '+')), if_neg (by decide : ¬('.' = '-'))]
  unfold jsParseFloatUnsigned
  simp only [show List.isPrefixOf ['I','n','f','i','n','i','t','y'] ('.' :: t) = false
      from by simp [List.isPrefixOf], Bool.false_eq_true, if_false, htk, hdr, htk2]
  simp

theorem numRunSearch_exact {run rest : List Char} (hne : run ≠ [])
    (hrun : ∀ c ∈ run, (c.isDigit || c = '.') = true)
    (hrest : ∀ r, rest.head? = some r → (r.isDigit || r = '.') = false) :
    numRunSearch (run ++ rest) = some (run, rest) := by
  obtain ⟨a, t, rfl⟩ := List.exists_cons_of_ne_nil hne
  have ha := hrun a (by simp)
  have htrest : rest.takeWhile (fun x => x.isDigit || x = '.') = [] := by
    cases rest with
    | nil => rfl
    | cons r rs =>
      rw [List.takeWhile_cons, hrest r rfl]
      simp
  have hdrest : rest.dropWhile (fun x => x.isDigit || x = '.') = rest := by
    cases rest with
    | nil => rfl
    | cons r rs =>
      rw [List.dropWhile_cons, hrest r rfl]
      simp
  have htk : ((a :: t) ++ rest).takeWhile (fun x => x.isDigit || x = '.')
      = (a :: t) ++ rest.takeWhile (fun x => x.isDigit || x = '.') :=
    takeWhile_append_all _ _ hrun
  have hdr : ((a :: t) ++ rest).dropWhile (fun x => x.isDigit || x = '.')
      = rest.dropWhile (fun x => x.isDigit || x = '.') :=
    dropWhile_append_all _ _ hrun
  unfold numRunSearch
  simp only [List.cons_append] at htk hdr ⊢
  simp only [ha, if_true, htk, hdr, htrest, hdrest, List.append_nil]

theorem isDigit_ne_comma {c : Char} (h : c.isDigit = true) : c ≠ ',' := by
  intro e; rw [e] at h; exact absurd h (by decide)

theorem parseViewCountStr_clean_digits (s : String) (ds : List Char) (hne : ds ≠ [])
    (hd : ∀ c ∈ ds, c.isDigit = true)
    (hclean : trimL ((stripViewWord s.data).filter (· ≠ ',')) = ds) :
    parseViewCountStr s = .num (natVal ds) := by
  have hrun : numRunSearch (trimL ((stripViewWord s.data).filter (· ≠ ','))) =
      some (ds, []) := by
    rw [hclean]
    have := @numRunSearch_exact ds [] hne
      (fun c hc => by simp [hd c hc]) (fun r hr => by simp at hr)
    simpa using this
  unfold parseViewCountStr
  simp only [hrun]
  rw [jsParseFloat_digits hne hd]
  rfl

theorem parseViewCountStr_digits (ds : List Char) (hne : ds ≠ [])
    (hd : ∀ c ∈ ds, c.isDigit = true) :
    parseViewCountStr (String.mk ds) = .num (natVal ds) := by
  refine parseViewCountStr_clean_digits _ ds hne hd ?_
  have hdata : (String.mk ds).data = ds := rfl
  rw [hdata, stripViewWord_no_v (fun c hc => toLower_ne_v_of_isDigit (hd c hc))]
  rw [List.filter_eq_self.mpr (fun c hc => by simp [isDigit_ne_comma (hd c hc)])]
  exact trimL_eq_self (fun c hc => isWS_false_of_isDigit (hd c hc))

theorem parseViewCountStr_digits_views (ds : List Char) (hne : ds ≠ [])
    (hd : ∀ c ∈ ds, c.isDigit = true) :
    parseViewCountStr (String.mk (ds ++ ' ' :: ['v', 'i', 'e', 'w', 's']))
      = .num (natVal ds) := by
  refine parseViewCountStr_clean_digits _ ds hne hd ?_
  have hdata : (String.mk (ds ++ ' ' :: ['v', 'i', 'e', 'w', 's'])).data
      = ds ++ ' ' :: ['v', 'i', 'e', 'w', 's'] := rfl
  rw [hdata,
    stripViewWord_append_no_v _ (fun c hc => toLower_ne_v_of_isDigit (hd c hc))]
  have htail : stripViewWord (' ' :: ['v', 'i', 'e', 'w', 's']) = [' '] := rfl
  rw [htail]
  rw [List.filter_eq_self.mpr ?_]
  · exact trimL_append_space hne (fun c hc => isWS_false_of_isDigit (hd c hc))
  · intro c hc
    rcases List.mem_append.mp hc with h1 | h1
    · simp [isDigit_ne_comma (hd c h1)]
    · rcases List.mem_singleton.mp h1 with rfl
      decide

theorem parseViewCountStr_comma (a b : List Char) (ha : a ≠ [])
    (hda : ∀ c ∈ a, c.isDigit = true) (hdb : ∀ c ∈ b, c.isDigit = true) :
    parseViewCountStr (String.mk (a ++ ',' :: b)) = .num (natVal (a ++ b)) := by
  have hdall : ∀ c ∈ a ++ b, c.isDigit = true := by
    intro c hc
    rcases List.mem_append.mp hc with h1 | h1
    · exact hda c h1
    · exact hdb c h1
  refine parseViewCountStr_clean_digits _ (a ++ b) (by simp [ha]) hdall ?_
  have hdata : (String.mk (a ++ ',' :: b)).data = a ++ ',' :: b := rfl
  rw [hdata]
  have hnv : ∀ c ∈ a ++ ',' :: b, c.toLower ≠ 'v' := by
    intro c hc
    rcases List.mem_append.mp hc with h1 | h1
    · exact toLower_ne_v_of_isDigit (hda c h1)
    · rcases List.mem_cons.mp h1 with rfl | h2
      · decide
      · exact toLower_ne_v_of_isDigit (hdb c h2)
  rw [stripViewWord_no_v hnv]
  have hfil : (a ++ ',' :: b).filter (· ≠ ',') = a ++ b := by
    rw [List.filter_append, List.filter_cons]
    rw [List.filter_eq_self.mpr (fun c hc => by simp [isDigit_ne_comma (hda c hc)]),
        List.filter_eq_self.mpr (fun c hc => by simp [isDigit_ne_comma (hdb c hc)])]
    simp
  rw [hfil]
  exact trimL_eq_self (fun c hc => isWS_false_of_isDigit (hdall c hc))

theorem parseViewCountStr_suffix (ip fp : List Char) (sfx : Char) (k : ℚ)
    (hne : ip ≠ []) (hip : ∀ c ∈ ip, c.isDigit = true)
    (hfp : ∀ c ∈ fp, c.isDigit = true)
    (hs : (sfx = 'k' ∨ sfx = 'K') ∧ k = 1000 ∨
          (sfx = 'm' ∨ sfx = 'M') ∧ k = 1000000 ∨
          (sfx = 'b' ∨ sfx = 'B') ∧ k = 1000000000) :
    parseViewCountStr (String.mk (ip ++ '.' :: (fp ++ [sfx])))
      = .num (((natVal ip : ℚ) + fracVal fp) * k) := by
  have hsfx_nv : sfx.toLower ≠ 'v' := by
    rcases hs with ⟨h1, _⟩ | ⟨h1, _⟩ | ⟨h1, _⟩ <;> rcases h1 with rfl | rfl <;> decide
  have hsfx_nc : sfx ≠ ',' := by
    rcases hs with ⟨h1, _⟩ | ⟨h1, _⟩ | ⟨h1, _⟩ <;> rcases h1 with rfl | rfl <;> decide
  have hsfx_ws : isWS sfx = false := by
    rcases hs with ⟨h1, _⟩ | ⟨h1, _⟩ | ⟨h1, _⟩ <;> rcases h1 with rfl | rfl <;> decide
  have hsfx_run : (sfx.isDigit || sfx = '.') = false := by
    rcases hs with ⟨h1, _⟩ | ⟨h1, _⟩ | ⟨h1, _⟩ <;> rcases h1 with rfl | rfl <;> decide
  have hl : ip ++ '.' :: (fp ++ [sfx]) = (ip ++ '.' :: fp) ++ [sfx] := by simp
  have hclean : trimL (((stripViewWord (ip ++ '.' :: (fp ++ [sfx]))).filter (· ≠ ',')))
      = (ip ++ '.' :: fp) ++ [sfx] := by
    have hnv : ∀ c ∈ ip ++ '.' :: (fp ++ [sfx]), c.toLower ≠ 'v' := by
      intro c hc
      rcases List.mem_append.mp hc with h1 | h1
      · exact toLower_ne_v_of_isDigit (hip c h1)
      · rcases List.mem_cons.mp h1 with rfl | h2
        · decide
        · rcases List.mem_append.mp h2 with h3 | h3
          · exact toLower_ne_v_of_isDigit (hfp c h3)
          · rcases List.mem_singleton.mp h3 with rfl
            exact hsfx_nv
    rw [stripViewWord_no_v hnv]
    rw [List.filter_eq_self.mpr ?_]
    · rw [← hl]
      refine trimL_eq_self ?_
      intro c hc
      rcases List.mem_append.mp hc with h1 | h1
      · exact isWS_false_of_isDigit (hip c h1)
      · rcases List.mem_cons.mp h1 with rfl | h2
        · decide
        · rcases List.mem_append.mp h2 with h3 | h3
          · exact isWS_false_of_isDigit (hfp c h3)
          · rcases List.mem_singleton.mp h3 with rfl
            exact hsfx_ws
    · intro c hc
      rcases List.mem_append.mp hc with h1 | h1
      · simp [isDigit_ne_comma (hip c h1)]
      · rcases List.mem_cons.mp h1 with rfl | h2
        · decide
        · rcases List.mem_append.mp h2 with h3 | h3
          · simp [isDigit_ne_comma (hfp c h3)]
          · rcases List.mem_singleton.mp h3 with rfl
            simp [hsfx_nc]
  have hrun : numRunSearch (trimL (((stripViewWord
      (ip ++ '.' :: (fp ++ [sfx]))).filter (· ≠ ','))))
      = some (ip ++ '.' :: fp, [sfx]) := by
    rw [hclean]
    refine numRunSearch_exact (by simp) ?_ ?_
    · intro c hc
      rcases List.mem_append.mp hc with h1 | h1
      · simp [hip c h1]
      · rcases List.mem_cons.mp h1 with rfl | h2
        · decide
        · simp [hfp c h2]
    · intro r hr
      simp only [List.head?_cons, Option.some.injEq] at hr
      rw [← hr]
      exact hsfx_run
  have hdata : (String.mk (ip ++ '.' :: (fp ++ [sfx]))).data
      = ip ++ '.' :: (fp ++ [sfx]) := rfl
  unfold parseViewCountStr
  rw [hdata]
  simp only [hrun]
  rw [jsParseFloat_digits_dot hne hip hfp]
  rcases hs with ⟨h1, rfl⟩ | ⟨h1, rfl⟩ | ⟨h1, rfl⟩ <;> rcases h1 with rfl | rfl <;> rfl

theorem parseViewCountStr_no_run_zero (s : String)
    (h1 : numRunSearch (trimL ((stripViewWord s.data).filter (· ≠ ','))) = none)
    (h2 : jsParseFloat (trimL ((stripViewWord s.data).filter (· ≠ ','))) = .nan) :
    parseViewCountStr s = .num 0 := by
  unfold parseViewCountStr
  simp only [h1, h2]

theorem parseViewCountStr_no_run_float (s : String)
    (h1 : numRunSearch (trimL ((stripViewWord s.data).filter (· ≠ ','))) = none)
    (h2 : jsParseFloat (trimL ((stripViewWord s.data).filter (· ≠ ','))) ≠ .nan) :
    parseViewCountStr s
      = jsParseFloat (trimL ((stripViewWord s.data).filter (· ≠ ','))) := by
  unfold parseViewCountStr
  simp only [h1]

theorem parseViewCountStr_dot_run_nan (s : String) (run rest : List Char)
    (h1 : numRunSearch (trimL ((stripViewWord s.data).filter (· ≠ ',')))
      = some (run, rest))
    (hne : run ≠ []) (hdots : ∀ c ∈ run, c = '.') :
    parseViewCountStr s = .nan := by
  have hf : jsParseFloat run = .nan := jsParseFloat_dots hne hdots
  unfold parseViewCountStr
  simp only [h1, hf]
  cases hk : kmbSuffix rest with
  | none => rfl
  | some c =>
    show (if c = 'K' then JSNum.nan.mulPos 1000
      else if c = 'M' then JSNum.nan.mulPos 1000000
      else JSNum.nan.mulPos 1000000000) = JSNum.nan
    split_ifs <;> rfl
theorem parseViewCount_jstr (s : String) :
    parseViewCount (.jstr s) = .ok (parseViewCountStr s) := by
  by_cases h : s = ""
  · subst h; rfl
  · have hf : (JStr.jstr s).falsy = false := by
      simp only [JStr.falsy, decide_eq_false_iff_not]
      exact h
    unfold parseViewCount
    rw [hf]
    rfl

/-! ### Claim C5 -/

/-- C5, counterexample: the claim says unparseable input yields `0`, but two
unparseable inputs escape the fallback.  `"."` — unparseable as a number —
yields `NaN`: the `[\d\.]+` regex class accepts a bare dot and
`parseFloat(".")` is `NaN`, which the suffix branch returns as-is (the
`isNaN` fallback guards only the no-match path).  `"Infinity"` contains no
digit-or-dot character, so the regex finds no match, but the fallback
`parseFloat("Infinity")` is `Infinity`, not `NaN`, so the `isNaN`-to-0 guard
lets `Infinity` through. -/
theorem parseViewCount_unparseable_not_zero :
    parseViewCount (.jstr ".") = .ok .nan ∧ JSNum.nan ≠ JSNum.num 0 ∧
    parseViewCount (.jstr "Infinity") = .ok .posInf ∧
    JSNum.posInf ≠ JSNum.num 0 :=
  ⟨rfl, by decide, rfl, by decide⟩

/-- C5 (amended): `parseViewCount` strips the word `views`/`view` and comma
separators and parses `<number>[.<decimals>][K|M|B]` case-insensitively with
multipliers 1e3/1e6/1e9 — universally: every nonempty digit string (bare,
followed by `" views"`, or split by a comma) parses to its numeral value,
and every `<digits>.<digits>` followed by a `k`/`K`, `m`/`M` or `b`/`B`
suffix parses to the decimal value scaled by 1000, 1000000 or 1000000000.
When the cleaned text contains no digit-or-dot character the result is
`parseFloat` of the cleaned text with `NaN` replaced by 0 — so `""`,
`"No views"` and `"abc"` give 0, but a literal `"Infinity"` escapes the
`isNaN` guard and is returned as `+Infinity`; and when the matched
digit-or-dot run contains no digit (such as `"."`) the result is `NaN`,
not 0.  Concretely `"1.4K views" → 1400`, `"2.3M" → 2300000`,
`"1B" → 1000000000`, `"1,234,567 views" → 1234567`, `"500" → 500`. -/
theorem parseViewCount_parsing_behaviour :
    (∀ ds : List Char, ds ≠ [] → (∀ c ∈ ds, c.isDigit = true) →
      parseViewCount (.jstr (String.mk ds)) = .ok (.num (natVal ds))) ∧
    (∀ ds : List Char, ds ≠ [] → (∀ c ∈ ds, c.isDigit = true) →
      parseViewCount (.jstr (String.mk (ds ++ ' ' :: ['v','i','e','w','s'])))
        = .ok (.num (natVal ds))) ∧
    (∀ a b : List Char, a ≠ [] → (∀ c ∈ a, c.isDigit = true) →
      (∀ c ∈ b, c.isDigit = true) →
      parseViewCount (.jstr (String.mk (a ++ ',' :: b)))
        = .ok (.num (natVal (a ++ b)))) ∧
    (∀ (ip fp : List Char) (sfx : Char) (k : ℚ), ip ≠ [] →
      (∀ c ∈ ip, c.isDigit = true) → (∀ c ∈ fp, c.isDigit = true) →
      ((sfx = 'k' ∨ sfx = 'K') ∧ k = 1000 ∨
       (sfx = 'm' ∨ sfx = 'M') ∧ k = 1000000 ∨
       (sfx = 'b' ∨ sfx = 'B') ∧ k = 1000000000) →
      parseViewCount (.jstr (String.mk (ip ++ '.' :: (fp ++ [sfx]))))
        = .ok (.num (((natVal ip : ℚ) + fracVal fp) * k))) ∧
    (∀ s : String,
      numRunSearch (trimL ((stripViewWord s.data).filter (· ≠ ','))) = none →
      jsParseFloat (trimL ((stripViewWord s.data).filter (· ≠ ','))) = .nan →
      parseViewCount (.jstr s) = .ok (.num 0)) ∧
    (∀ s : String,
      numRunSearch (trimL ((stripViewWord s.data).filter (· ≠ ','))) = none →
      jsParseFloat (trimL ((stripViewWord s.data).filter (· ≠ ','))) ≠ .nan →
      parseViewCount (.jstr s)
        = .ok (jsParseFloat (trimL ((stripViewWord s.data).filter (· ≠ ','))))) ∧
    (∀ (s : String) (run rest : List Char),
      numRunSearch (trimL ((stripViewWord s.data).filter (· ≠ ',')))
        = some (run, rest) →
      run ≠ [] → (∀ c ∈ run, c = '.') →
      parseViewCount (.jstr s) = .ok .nan) ∧
    parseViewCount (.jstr "1.4K views") = .ok (.num 1400) ∧
    parseViewCount (.jstr "2.3M") = .ok (.num 2300000) ∧
    parseViewCount (.jstr "1B") = .ok (.num 1000000000) ∧
    parseViewCount (.jstr "1.4k views") = .ok (.num 1400) ∧
    parseViewCount (.jstr "1,234,567 views") = .ok (.num 1234567) ∧
    parseViewCount (.jstr "500") = .ok (.num 500) ∧
    parseViewCount (.jstr "") = .ok (.num 0) ∧
    parseViewCount (.jstr "No views") = .ok (.num 0) ∧
    parseViewCount (.jstr "abc") = .ok (.num 0) ∧
    parseViewCount (.jstr "Infinity") = .ok .posInf := by
  refine ⟨?_, ?_, ?_, ?_, ?_, ?_, ?_, ?_, ?_, ?_, ?_, ?_, ?_,
    rfl, rfl, rfl, rfl⟩
  · intro ds hne hd
    rw [parseViewCount_jstr, parseViewCountStr_digits ds hne hd]
  · intro ds hne hd
    rw [parseViewCount_jstr, parseViewCountStr_digits_views ds hne hd]
  · intro a b ha hda hdb
    rw [parseViewCount_jstr, parseViewCountStr_comma a b ha hda hdb]
  · intro ip fp sfx k hne hip hfp hs
    rw [parseViewCount_jstr, parseViewCountStr_suffix ip fp sfx k hne hip hfp hs]
  · intro s h1 h2
    rw [parseViewCount_jstr, parseViewCountStr_no_run_zero s h1 h2]
  · intro s h1 h2
    rw [parseViewCount_jstr, parseViewCountStr_no_run_float s h1 h2]
  · intro s run rest h1 hne hdots
    rw [parseViewCount_jstr, parseViewCountStr_dot_run_nan s run rest h1 hne hdots]
  · rw [parseViewCount_jstr, pvs_14K]
  · rw [parseViewCount_jstr, pvs_23M]
  · rw [parseViewCount_jstr, pvs_1B]
  · rw [parseViewCount_jstr, pvs_14K_lower]
  · rw [parseViewCount_jstr, pvs_commas]
  · rw [parseViewCount_jstr, pvs_500]

/-- C5 witness: each universally-quantified clause of the parsing theorem
evaluated at a concrete input, with its hypotheses discharged there. -/
theorem parseViewCount_parsing_behaviour_witness :
    parseViewCount (.jstr (String.mk ['7'])) = .ok (.num (natVal ['7'])) ∧
    parseViewCount (.jstr (String.mk (['7'] ++ ' ' :: ['v','i','e','w','s'])))
      = .ok (.num (natVal ['7'])) ∧
    parseViewCount (.jstr (String.mk (['1'] ++ ',' :: ['2'])))
      = .ok (.num (natVal (['1'] ++ ['2']))) ∧
    parseViewCount (.jstr (String.mk (['1'] ++ '.' :: (['4'] ++ ['K']))))
      = .ok (.num (((natVal ['1'] : ℚ) + fracVal ['4']) * 1000)) ∧
    parseViewCount (.jstr "abc") = .ok (.num 0) ∧
    parseViewCount (.jstr "Infinity")
      = .ok (jsParseFloat
          (trimL ((stripViewWord "Infinity".data).filter (· ≠ ',')))) ∧
    parseViewCount (.jstr ".") = .ok .nan :=
  ⟨parseViewCount_parsing_behaviour.1 ['7'] (by decide) (by decide),
   parseViewCount_parsing_behaviour.2.1 ['7'] (by decide) (by decide),
   parseViewCount_parsing_behaviour.2.2.1 ['1'] ['2']
     (by decide) (by decide) (by decide),
   parseViewCount_parsing_behaviour.2.2.2.1 ['1'] ['4'] 'K' 1000
     (by decide) (by decide) (by decide) (Or.inl ⟨Or.inr rfl, rfl⟩),
   parseViewCount_parsing_behaviour.2.2.2.2.1 "abc" rfl rfl,
   parseViewCount_parsing_behaviour.2.2.2.2.2.1 "Infinity" rfl (by decide),
   parseViewCount_parsing_behaviour.2.2.2.2.2.2.1 "." ['.'] []
     rfl (by decide) (by decide)⟩
